import Mathlib

/-!
# Verification of the interactive-element extraction and screenshot annotation pipeline

A shallow embedding of the repository's Go sources:

* `dom/enhanced.go` — the CDP snapshot parser, interactivity classifier,
  occlusion/containment geometric filters, cross-snapshot diff, dense
  indexing, the enhanced element map, and the token serializer.
* `screenshot/annotate.go` — the annotation engine's border drawing, label
  background painting and 5×7 digit rasterization.

Wire-level `float64` values are embedded as `ℚ`, Go `int` as `ℤ` (counters
that only ever grow from zero as `ℕ`), Go maps as association lists whose
insertion prepends (so the most recent insertion wins on lookup, matching
Go's overwrite semantics), and Go's weakly typed CDP property values as an
explicit sum.  The protocol I/O, JSON decoding and image codecs sit outside
the embedded core; where a function of the repository consumes their result
it takes that result as an argument.
-/

/-! ## Geometry primitives (dom/enhanced.go: BoundingBox users) -/

/-- A CSS-pixel bounding box, `float64` fields embedded as `ℚ`. -/
structure BoundingBox where
  x : ℚ
  y : ℚ
  width : ℚ
  height : ℚ
deriving DecidableEq, Repr

/-- Area of a box, `width * height`, as computed inline by the filters. -/
def boxArea (b : BoundingBox) : ℚ := b.width * b.height

/-- Axis-aligned intersection area of two boxes, written from the spec's
description "compute the axis-aligned intersection area"; used to state the
claims, and proved equivalent to what the code computes. -/
def interArea (a b : BoundingBox) : ℚ :=
  max 0 (min (a.x + a.width) (b.x + b.width) - max a.x b.x) *
    max 0 (min (a.y + a.height) (b.y + b.height) - max a.y b.y)

/-- `isSignificantlyOccluded` (dom/enhanced.go:722): target is mostly
covered by occluder: positive axis-aligned overlap whose area is at least
90% of the target's area. -/
def isSignificantlyOccluded (target occluder : BoundingBox) : Bool :=
  let x1 := max target.x occluder.x
  let y1 := max target.y occluder.y
  let x2 := min (target.x + target.width) (occluder.x + occluder.width)
  let y2 := min (target.y + target.height) (occluder.y + occluder.height)
  if x2 ≤ x1 ∨ y2 ≤ y1 then
    false
  else
    let intersectionArea := (x2 - x1) * (y2 - y1)
    let targetArea := target.width * target.height
    decide (intersectionArea / targetArea ≥ 9 / 10)

/-- `isContainedWithin` (dom/enhanced.go:700): inner is at least
`threshold` contained within outer. -/
def isContainedWithin (inner outer : BoundingBox) (threshold : ℚ) : Bool :=
  let x1 := max inner.x outer.x
  let y1 := max inner.y outer.y
  let x2 := min (inner.x + inner.width) (outer.x + outer.width)
  let y2 := min (inner.y + inner.height) (outer.y + outer.height)
  if x2 ≤ x1 ∨ y2 ≤ y1 then
    false
  else
    let intersectionArea := (x2 - x1) * (y2 - y1)
    let innerArea := inner.width * inner.height
    if innerArea ≤ 0 then
      false
    else
      decide (intersectionArea / innerArea ≥ threshold)

/-! ## Element records

`Element` is the base record of the dom package (its defining file is not
among the provided sources; the fields are those the spec's data model
lists in §3 and those `enhanced.go` reads and writes: tag, role, name,
text, type, href, placeholder, ariaLabel, the four flags, bounding box,
selector, index and backend-node-id; Go zero values are empty strings,
`false`, a zero box and `0`). -/
structure Element where
  tagName : String
  role : String
  name : String
  text : String
  type : String
  href : String
  placeholder : String
  ariaLabel : String
  isVisible : Bool
  isEnabled : Bool
  isInteractive : Bool
  isFocusable : Bool
  boundingBox : BoundingBox
  selector : String
  index : ℤ
  backendNodeID : ℤ
deriving DecidableEq, Repr

/-- `EnhancedElement` (dom/enhanced.go:17) extends `Element` with
CDP-sourced data.  The Go struct embeds `Element`; the embedded record is
the `element` field here.  Note the outer struct carries its own
`backendNodeID`, distinct from the embedded `Element`'s field. -/
structure EnhancedElement where
  element : Element
  backendNodeID : ℤ
  parentIndex : ℤ
  depth : ℤ
  paintOrder : ℤ
  isNew : Bool
  isScrollable : Bool
  scrollWidth : ℤ
  scrollHeight : ℤ
  childCount : ℤ
  isShadowRoot : Bool
  axFocusable : Bool
  axEditable : Bool
  axExpanded : Option Bool
  axChecked : Option Bool
  axSelected : Option Bool
  axRequired : Bool
  axDisabled : Bool
  axDescription : String
  computedCursor : String
  zIndex : ℤ
  isOccluded : Bool
  isContained : Bool
deriving DecidableEq, Repr

/-- The Go zero value of `Element`. -/
def Element.zero : Element :=
  { tagName := "", role := "", name := "", text := "", type := "", href := ""
    placeholder := "", ariaLabel := "", isVisible := false, isEnabled := false
    isInteractive := false, isFocusable := false
    boundingBox := ⟨0, 0, 0, 0⟩, selector := "", index := 0, backendNodeID := 0 }

/-! ## Accessibility tree records (CDPAXNode and friends)

The `CDPAXNode` type is declared in a dom-package file not among the
provided sources; `enhanced.go` reads `BackendDOMNodeID`, `Role`, `Name`,
`Description` (nilable values) and `Properties` (name plus nilable value),
and type-asserts each value to `bool` or `string`.  Go's `any` is embedded
as an explicit sum. -/
inductive GoValue where
  | ofBool : Bool → GoValue
  | ofString : String → GoValue
  | other : GoValue
deriving DecidableEq, Repr

structure AXValue where
  value : GoValue
deriving DecidableEq, Repr

structure AXProperty where
  name : String
  value : Option AXValue
deriving DecidableEq, Repr

structure CDPAXNode where
  backendDOMNodeID : ℤ
  role : Option AXValue
  name : Option AXValue
  description : Option AXValue
  properties : List AXProperty
deriving DecidableEq, Repr

/-- One iteration of the property loop of `mergeAXInfo`
(dom/enhanced.go:602): switch on the property name, type-assert the value.
A `disabled=true` property clears the base `isEnabled`. -/
def applyAXProperty (el : EnhancedElement) (prop : AXProperty) : EnhancedElement :=
  match prop.value with
  | none => el
  | some v =>
    if prop.name = "focusable" then
      match v.value with
      | GoValue.ofBool val =>
          { el with axFocusable := val, element := { el.element with isFocusable := val } }
      | _ => el
    else if prop.name = "editable" then
      match v.value with
      | GoValue.ofBool val => { el with axEditable := val }
      | _ => el
    else if prop.name = "expanded" then
      match v.value with
      | GoValue.ofBool val => { el with axExpanded := some val }
      | _ => el
    else if prop.name = "checked" then
      match v.value with
      | GoValue.ofBool val => { el with axChecked := some val }
      | _ => el
    else if prop.name = "selected" then
      match v.value with
      | GoValue.ofBool val => { el with axSelected := some val }
      | _ => el
    else if prop.name = "required" then
      match v.value with
      | GoValue.ofBool val => { el with axRequired := val }
      | _ => el
    else if prop.name = "disabled" then
      match v.value with
      | GoValue.ofBool val =>
          let el := { el with axDisabled := val }
          if val then { el with element := { el.element with isEnabled := false } } else el
      | _ => el
    else el

/-- `mergeAXInfo` (dom/enhanced.go:585): fill empty role/name, set the
description, then fold the property loop. -/
def mergeAXInfo (el : EnhancedElement) (axNode : CDPAXNode) : EnhancedElement :=
  let el :=
    match axNode.name with
    | some v =>
      match v.value with
      | GoValue.ofString s =>
          if el.element.name = "" then { el with element := { el.element with name := s } } else el
      | _ => el
    | none => el
  let el :=
    match axNode.role with
    | some v =>
      match v.value with
      | GoValue.ofString s =>
          if el.element.role = "" then { el with element := { el.element with role := s } } else el
      | _ => el
    | none => el
  let el :=
    match axNode.description with
    | some v =>
      match v.value with
      | GoValue.ofString s => { el with axDescription := s }
      | _ => el
    | none => el
  axNode.properties.foldl applyAXProperty el

/-! ## Interactivity classifier (dom/enhanced.go:106-120, 519-571) -/

/-- `interactiveTags` (dom/enhanced.go:107). -/
def interactiveTags : List String :=
  ["a", "button", "input", "select", "textarea", "details", "summary", "option", "optgroup"]

/-- `interactiveRoles` (dom/enhanced.go:114). -/
def interactiveRoles : List String :=
  ["button", "link", "textbox", "checkbox", "radio", "combobox", "listbox", "menuitem",
   "menuitemcheckbox", "menuitemradio", "option", "tab", "switch", "slider", "spinbutton",
   "searchbox", "gridcell", "treeitem"]

/-- `shouldProcessTag` (dom/enhanced.go:506): interactive tags plus the
ambiguous container tags. -/
def shouldProcessTag (tagName : String) : Bool :=
  interactiveTags.contains tagName ||
    ["div", "span", "li", "tr", "td", "img", "svg", "label", "nav", "header", "footer",
     "article", "section"].contains tagName

/-- Tier 4 of the classifier: the AX node asserts a boolean-true
`focusable` or `editable` property (dom/enhanced.go:540-552). -/
def axNodeAssertsInteractive (axNode : CDPAXNode) : Bool :=
  axNode.properties.any (fun prop =>
    match prop.value with
    | none => false
    | some v =>
      (prop.name == "focusable" || prop.name == "editable") &&
        match v.value with
        | GoValue.ofBool val => val
        | _ => false)

/-- `isElementInteractive` (dom/enhanced.go:520): four-tier disjunction. -/
def isElementInteractive (tagName role : String) (hasOnclick : Bool) (tabindex : String)
    (axNode : Option CDPAXNode) : Bool :=
  if interactiveTags.contains tagName then true
  else if interactiveRoles.contains role then true
  else if hasOnclick then true
  else if tabindex ≠ "" ∧ tabindex ≠ "-1" then true
  else
    match axNode with
    | some n => axNodeAssertsInteractive n
    | none => false

/-- `isElementInteractiveWithCursor` (dom/enhanced.go:559): tier 5 adds
`cursor == "pointer"`. -/
def isElementInteractiveWithCursor (tagName role : String) (hasOnclick : Bool)
    (tabindex : String) (cursor : String) (axNode : Option CDPAXNode) : Bool :=
  if isElementInteractive tagName role hasOnclick tabindex axNode then true
  else if cursor = "pointer" then true
  else false

/-- Substring test over character lists, embedding Go's
`strings.Contains` (the empty needle is contained in every string). -/
def listPrefixAt : List Char → List Char → Bool
  | [], _ => true
  | _ :: _, [] => false
  | a :: sub, b :: rest => decide (a = b) && listPrefixAt sub rest

def listContainsSub (sub : List Char) : List Char → Bool
  | [] => sub.isEmpty
  | c :: rest => listPrefixAt sub (c :: rest) || listContainsSub sub rest

def goStrContains (s sub : String) : Bool := listContainsSub sub.data s.data

/-- `isElementScrollable` (dom/enhanced.go:574). -/
def isElementScrollable (overflow : String) (scrollWidth scrollHeight clientWidth clientHeight : ℤ) : Bool :=
  let scrollAllowed := overflow == "auto" || overflow == "scroll" ||
    goStrContains overflow "auto" || goStrContains overflow "scroll"
  let hasOverflow := decide (scrollWidth > clientWidth) || decide (scrollHeight > clientHeight)
  scrollAllowed && hasOverflow

/-! ## Snapshot wire payload (the decoded columnar document)

`parseSnapshotResponse` (dom/enhanced.go:248) first JSON-decodes the
`DOMSnapshot.captureSnapshot` payload and keeps only the first document;
the embedding starts from that decoded first document. -/

structure SnapshotNodes where
  parentIndex : List ℤ
  nodeType : List ℤ
  nodeName : List ℤ
  nodeValue : List ℤ
  backendNodeId : List ℤ
  attributes : List (List ℤ)
  textValue : List ℤ
  inputValue : List ℤ
  isClickable : List Bool
deriving DecidableEq, Repr

structure SnapshotLayout where
  nodeIndex : List ℤ
  bounds : List (List ℚ)
  paintOrders : List ℤ
  offsetRects : List (List ℚ)
  scrollRects : List (List ℚ)
  clientRects : List (List ℚ)
  styles : List (List ℤ)
deriving DecidableEq, Repr

structure SnapshotDocument where
  nodes : SnapshotNodes
  layout : SnapshotLayout
  stringsArr : List String
deriving DecidableEq, Repr

/-- Go `int(f)` conversion of a `float64`: truncation toward zero. -/
def goInt (q : ℚ) : ℤ := if q < 0 then ⌈q⌉ else ⌊q⌋

/-- Go `strings.ToLower`, restricted to the character-wise case fold. -/
def goToLower (s : String) : String := ⟨s.data.map Char.toLower⟩

/-- `getString` (dom/enhanced.go:321): bounds-checked string-table read,
empty string when out of range. -/
def getString (stringsArr : List String) (idx : ℤ) : String :=
  if 0 ≤ idx ∧ idx < (stringsArr.length : ℤ) then stringsArr.getD idx.toNat "" else ""

/-- The scan of `getAttr` (dom/enhanced.go:307-317) over the flat
name/value index array: a pair whose name matches but whose value index is
out of range is skipped, and a trailing lone entry is ignored. -/
def getAttrPairs (stringsArr : List String) (attrName : String) : List ℤ → String
  | nameIdx :: valueIdx :: rest =>
    if 0 ≤ nameIdx ∧ nameIdx < (stringsArr.length : ℤ) ∧
        stringsArr.getD nameIdx.toNat "" = attrName then
      if 0 ≤ valueIdx ∧ valueIdx < (stringsArr.length : ℤ) then
        stringsArr.getD valueIdx.toNat ""
      else
        getAttrPairs stringsArr attrName rest
    else
      getAttrPairs stringsArr attrName rest
  | _ => ""

/-- `getAttr` (dom/enhanced.go:302): attribute value of node `i`, empty
when absent. -/
def getAttr (doc : SnapshotDocument) (i : ℕ) (attrName : String) : String :=
  if i ≥ doc.nodes.attributes.length then ""
  else getAttrPairs doc.stringsArr attrName (doc.nodes.attributes.getD i [])

/-- `layoutLookup` (dom/enhanced.go:296-299): Go map built by iterating
`layout.NodeIndex`; a later duplicate key overwrites, so the last position
wins. -/
def layoutLookup (layout : SnapshotLayout) (nodeIdx : ℤ) : Option ℕ :=
  (layout.nodeIndex.enum.reverse.find? (fun p => p.2 == nodeIdx)).map (fun p => p.1)

/-- Tag name of node `i`: lowercased string-table entry
(dom/enhanced.go:336-339). -/
def nodeTagName (doc : SnapshotDocument) (i : ℕ) : String :=
  if i < doc.nodes.nodeName.length then
    goToLower (getString doc.stringsArr (doc.nodes.nodeName.getD i 0))
  else ""

/-- Bounds of node `i` from its layout record, when present with at least
four entries (dom/enhanced.go:359-371). -/
def nodeBBox (doc : SnapshotDocument) (i : ℕ) : Option BoundingBox :=
  match layoutLookup doc.layout (i : ℤ) with
  | none => none
  | some layoutIdx =>
    if layoutIdx < doc.layout.bounds.length then
      let bounds := doc.layout.bounds.getD layoutIdx []
      if bounds.length ≥ 4 then
        some ⟨bounds.getD 0 0, bounds.getD 1 0, bounds.getD 2 0, bounds.getD 3 0⟩
      else none
    else none

/-- Paint order of node `i` (dom/enhanced.go:372-374), default 0. -/
def nodePaintOrder (doc : SnapshotDocument) (i : ℕ) : ℤ :=
  match layoutLookup doc.layout (i : ℤ) with
  | none => 0
  | some layoutIdx =>
    if layoutIdx < doc.layout.paintOrders.length then
      doc.layout.paintOrders.getD layoutIdx 0
    else 0

/-- Computed style `k` of node `i` (dom/enhanced.go:376-403): `none` when
the node has no layout record, the style row is missing, or the row is too
short.  The requested styles are display(0), visibility(1), opacity(2),
cursor(3), pointer-events(4), overflow(5). -/
def nodeStyle (doc : SnapshotDocument) (i k : ℕ) : Option String :=
  match layoutLookup doc.layout (i : ℤ) with
  | none => none
  | some layoutIdx =>
    if layoutIdx < doc.layout.styles.length then
      let styles := doc.layout.styles.getD layoutIdx []
      if styles.length > k then some (getString doc.stringsArr (styles.getD k 0))
      else none
    else none

/-- Width/height pair of a rect row (dom/enhanced.go:405-418): entries 2
and 3 truncated to int, zero when missing or short. -/
def nodeRectDims (doc : SnapshotDocument) (rects : List (List ℚ)) (i : ℕ) : ℤ × ℤ :=
  match layoutLookup doc.layout (i : ℤ) with
  | none => (0, 0)
  | some layoutIdx =>
    if layoutIdx < rects.length then
      let rect := rects.getD layoutIdx []
      if rect.length ≥ 4 then (goInt (rect.getD 2 0), goInt (rect.getD 3 0))
      else (0, 0)
    else (0, 0)

/-- Visibility of node `i` (dom/enhanced.go:369, 379-396): positive bounds,
then overridden to invisible by `display == "none"`,
`visibility == "hidden"`, or the literal opacity string `"0"`. -/
def nodeIsVisible (doc : SnapshotDocument) (i : ℕ) : Bool :=
  let fromBounds :=
    match nodeBBox doc i with
    | some b => decide (b.width > 0) && decide (b.height > 0)
    | none => false
  fromBounds
    && !(nodeStyle doc i 0 == some "none")
    && !(nodeStyle doc i 1 == some "hidden")
    && !(nodeStyle doc i 2 == some "0")

/-- Text of node `i` (dom/enhanced.go:431-437): `textValue` when its index
is non-negative, else `inputValue`. -/
def nodeText (doc : SnapshotDocument) (i : ℕ) : String :=
  let text :=
    if i < doc.nodes.textValue.length ∧ 0 ≤ doc.nodes.textValue.getD i 0 then
      getString doc.stringsArr (doc.nodes.textValue.getD i 0)
    else ""
  if text = "" ∧ i < doc.nodes.inputValue.length ∧ 0 ≤ doc.nodes.inputValue.getD i 0 then
    getString doc.stringsArr (doc.nodes.inputValue.getD i 0)
  else text

/-- Go's `%q` verb on a string: double-quote and escape. Only the quote
and backslash escapes are modelled; no claim depends on the rarer escape
sequences. -/
def goQuoteChar (c : Char) : List Char :=
  if c = '"' then ['\\', '"'] else if c = '\\' then ['\\', '\\'] else [c]

def goQuote (s : String) : String :=
  ⟨('"' :: (s.data.map goQuoteChar).flatten) ++ ['"']⟩

/-- `truncate` is defined in a dom-package file not among the provided
sources.  Modelled from the spec: text is "truncated to 200 chars" /
"truncated to 50 chars"; the repository's example program carries the same
helper, keeping strings of length at most `maxLen` unchanged and otherwise
cutting to `maxLen - 3` characters plus `"..."`. -/
def truncate (s : String) (maxLen : ℕ) : String :=
  if s.length ≤ maxLen then s else String.mk (s.data.take (maxLen - 3)) ++ "..."

/-- Backend node id of node `i` (dom/enhanced.go:346-349), default 0. -/
def nodeBackendID (doc : SnapshotDocument) (i : ℕ) : ℤ :=
  if i < doc.nodes.backendNodeId.length then doc.nodes.backendNodeId.getD i 0 else 0

/-- The AX-merge step of element construction (dom/enhanced.go:472-475):
merge only when the lookup has the backend id. -/
def applyAXLookup (ax : ℤ → Option CDPAXNode) (backendNodeID : ℤ)
    (el : EnhancedElement) : EnhancedElement :=
  match ax backendNodeID with
  | some axNode => mergeAXInfo el axNode
  | none => el

/-- The selector derivation (dom/enhanced.go:477-482): `#id`, else
`tag[name="…"]`, else none. -/
def applySelector (tagName id name : String) (el : EnhancedElement) : EnhancedElement :=
  if id ≠ "" then { el with element := { el.element with selector := "#" ++ id } }
  else if name ≠ "" then
    { el with element :=
        { el.element with selector := tagName ++ "[name=" ++ goQuote name ++ "]" } }
  else el

/-- The bounding-box assignment (dom/enhanced.go:484-486). -/
def applyBBox (bbox : Option BoundingBox) (el : EnhancedElement) : EnhancedElement :=
  match bbox with
  | some b => { el with element := { el.element with boundingBox := b } }
  | none => el

/-- The per-node element construction of `parseSnapshotResponse`
(dom/enhanced.go:336-488): attributes, layout-derived geometry and styles,
classification, scrollability, enabled state, AX merge, selector and
bounding-box assignment. -/
def buildElement (doc : SnapshotDocument) (ax : ℤ → Option CDPAXNode) (i : ℕ) :
    EnhancedElement :=
  let tagName := nodeTagName doc i
  let backendNodeID := nodeBackendID doc i
  let bbox := nodeBBox doc i
  let paintOrder := nodePaintOrder doc i
  let isVisible := nodeIsVisible doc i
  let cursor := (nodeStyle doc i 3).getD ""
  let overflow := (nodeStyle doc i 5).getD ""
  let scrollDims := nodeRectDims doc doc.layout.scrollRects i
  let clientDims := nodeRectDims doc doc.layout.clientRects i
  let role := getAttr doc i "role"
  let ariaLabel := getAttr doc i "aria-label"
  let placeholder := getAttr doc i "placeholder"
  let href := getAttr doc i "href"
  let inputType := getAttr doc i "type"
  let name := getAttr doc i "name"
  let id := getAttr doc i "id"
  let text := nodeText doc i
  let isInteractive := isElementInteractiveWithCursor tagName role
    (decide (getAttr doc i "onclick" ≠ "")) (getAttr doc i "tabindex") cursor
    (ax backendNodeID)
  let scrollable := isElementScrollable overflow scrollDims.1 scrollDims.2
    clientDims.1 clientDims.2
  let isEnabled :=
    decide (getAttr doc i "disabled" = "") && decide (getAttr doc i "aria-disabled" ≠ "true")
  let el : EnhancedElement :=
    { element :=
        { Element.zero with
          tagName := tagName, role := role, name := name
          text := truncate text 200, type := inputType, href := href
          placeholder := placeholder, ariaLabel := ariaLabel
          isVisible := isVisible, isEnabled := isEnabled, isInteractive := isInteractive }
      backendNodeID := backendNodeID
      parentIndex := 0, depth := 0
      paintOrder := paintOrder
      isNew := false, isScrollable := scrollable
      scrollWidth := scrollDims.1, scrollHeight := scrollDims.2
      childCount := 0, isShadowRoot := false
      axFocusable := false, axEditable := false
      axExpanded := none, axChecked := none, axSelected := none
      axRequired := false, axDisabled := false, axDescription := ""
      computedCursor := cursor, zIndex := 0
      isOccluded := false, isContained := false }
  applyBBox bbox (applySelector tagName id name (applyAXLookup ax backendNodeID el))

/-- The node filter of the parse loop (dom/enhanced.go:330-344): element
nodes (`nodeType == 1`) whose tag passes `shouldProcessTag`. -/
def candidateIndices (doc : SnapshotDocument) : List ℕ :=
  (List.range doc.nodes.nodeType.length).filter (fun i =>
    doc.nodes.nodeType.getD i 0 == 1 && shouldProcessTag (nodeTagName doc i))

/-- Descending insertion by paint order; embeds the
`sort.Slice(..., PaintOrder[i] > PaintOrder[j])` call
(dom/enhanced.go:492-494).  Go's sort order among equal paint orders is
unspecified but deterministic; this sort is one such determinization. -/
def insertByPaint (el : EnhancedElement) : List EnhancedElement → List EnhancedElement
  | [] => [el]
  | h :: t => if el.paintOrder > h.paintOrder then el :: h :: t else h :: insertByPaint el t

def sortByPaintOrder : List EnhancedElement → List EnhancedElement
  | [] => []
  | h :: t => insertByPaint h (sortByPaintOrder t)

/-- Whether a box is non-empty in the sense the filters test:
the negation of `Width <= 0 || Height <= 0`. -/
def boxNonEmpty (b : BoundingBox) : Bool := decide (b.width > 0) && decide (b.height > 0)

/-- `markOccludedElements` (dom/enhanced.go:644): over the paint-order
sorted list, mark each non-empty element covered at 90%+ by some earlier
(higher-painted) non-empty element.  `seen` is the already-processed
prefix of the array the Go loop scans with `j < i`; `break` on the first
hit only stops the scan, so the flag is the same existential the `any`
computes. -/
def markOccludedLoop : List EnhancedElement → List EnhancedElement → List EnhancedElement
  | _, [] => []
  | seen, el :: rest =>
    let el' :=
      if !boxNonEmpty el.element.boundingBox then el
      else if seen.any (fun higher =>
          boxNonEmpty higher.element.boundingBox &&
            isSignificantlyOccluded el.element.boundingBox higher.element.boundingBox) then
        { el with isOccluded := true }
      else el
    el' :: markOccludedLoop (seen ++ [el']) rest

def markOccludedElements (elements : List EnhancedElement) : List EnhancedElement :=
  markOccludedLoop [] elements

/-- `interactiveConfig` and its default (dom/enhanced.go:92-104). -/
structure InteractiveConfig where
  minClickableSize : ℤ
  iconSizeMin : ℤ
  iconSizeMax : ℤ
  containmentThreshold : ℚ
deriving DecidableEq, Repr

def defaultInteractiveConfig : InteractiveConfig :=
  { minClickableSize := 5, iconSizeMin := 10, iconSizeMax := 50
    containmentThreshold := 99 / 100 }

/-- The inner scan of `markContainedElements` (dom/enhanced.go:677-695):
walk the whole array with running position `j`, skipping position `i` and
non-interactive or empty potentials; a hit needs the containment test plus
a strictly smaller area.  The pass writes only `isContained`, which this
scan never reads, so scanning the original array is exact. -/
def containedScan (el : EnhancedElement) (i : ℕ) : List EnhancedElement → ℕ → Bool
  | [], _ => false
  | potential :: rest, j =>
    (decide (j ≠ i) && potential.element.isInteractive &&
      boxNonEmpty potential.element.boundingBox &&
      isContainedWithin el.element.boundingBox potential.element.boundingBox
        defaultInteractiveConfig.containmentThreshold &&
      decide (el.element.boundingBox.width * el.element.boundingBox.height <
        potential.element.boundingBox.width * potential.element.boundingBox.height))
    || containedScan el i rest (j + 1)

/-- `markContainedElements` (dom/enhanced.go:669): mark each non-empty
element 99%+ inside some other interactive non-empty element of strictly
larger area. -/
def markContainedLoop (all : List EnhancedElement) :
    List EnhancedElement → ℕ → List EnhancedElement
  | [], _ => []
  | el :: rest, i =>
    let el' :=
      if !boxNonEmpty el.element.boundingBox then el
      else if containedScan el i all 0 then { el with isContained := true }
      else el
    el' :: markContainedLoop all rest (i + 1)

def markContainedElements (elements : List EnhancedElement) : List EnhancedElement :=
  markContainedLoop elements elements 0

/-- `parseSnapshotResponse` (dom/enhanced.go:248-503) after JSON decoding:
build candidate elements, sort by descending paint order, and run both
geometric marking passes. -/
def parseSnapshotResponse (doc : SnapshotDocument) (ax : ℤ → Option CDPAXNode) :
    List EnhancedElement :=
  markContainedElements (markOccludedElements
    (sortByPaintOrder ((candidateIndices doc).map (buildElement doc ax))))

/-! ## The enhanced element map (dom/enhanced.go:49-89) -/

/-- Association-list lookup with Go-map semantics: the most recently
inserted binding is first and wins. -/
def assocLookup (k : ℤ) : List (ℤ × EnhancedElement) → Option EnhancedElement
  | [] => none
  | (k', v) :: rest => if k = k' then some v else assocLookup k rest

/-- `EnhancedElementMap` (dom/enhanced.go:50).  Go's `Elements` slice holds
pointers into the added `EnhancedElement` records; `elements` here is that
list of records (the base-`Element` view the Go slice exposes is the
`element` field of each entry).  The two Go maps are association lists
whose insertion prepends. -/
structure EnhancedElementMap where
  pageURL : String
  pageTitle : String
  elements : List EnhancedElement
  indexMap : List (ℤ × Element)
  backendNodeMap : List (ℤ × EnhancedElement)
  previousNodeIDs : List ℤ
  totalElements : ℕ
  filteredByPaint : ℕ
  filteredByContain : ℕ
  filteredByHidden : ℕ
deriving DecidableEq, Repr

/-- `NewEnhancedElementMap` (dom/enhanced.go:65). -/
def NewEnhancedElementMap : EnhancedElementMap :=
  { pageURL := "", pageTitle := "", elements := [], indexMap := []
    backendNodeMap := [], previousNodeIDs := []
    totalElements := 0, filteredByPaint := 0, filteredByContain := 0, filteredByHidden := 0 }

/-- `AddEnhanced` (dom/enhanced.go:77): append to the element list, record
the index, and (only for positive ids) overwrite the backend-node binding. -/
def AddEnhanced (m : EnhancedElementMap) (el : EnhancedElement) : EnhancedElementMap :=
  { m with
    elements := m.elements ++ [el]
    indexMap := (el.element.index, el.element) :: m.indexMap
    backendNodeMap :=
      if el.backendNodeID > 0 then (el.backendNodeID, el) :: m.backendNodeMap
      else m.backendNodeMap }

/-- The filter-and-index loop of `ExtractEnhancedElementMap`
(dom/enhanced.go:212-241): bucket each candidate as hidden / occluded /
contained or assign it the next dense index, mark it new when a previous
map was supplied and its backend id was absent from it, and add it. -/
def filterAndIndex (previousSupplied : Bool) :
    List EnhancedElement → ℤ → EnhancedElementMap → EnhancedElementMap
  | [], _, m => m
  | el :: rest, index, m =>
    if !el.element.isInteractive || !el.element.isVisible then
      filterAndIndex previousSupplied rest index
        { m with filteredByHidden := m.filteredByHidden + 1 }
    else if el.isOccluded then
      filterAndIndex previousSupplied rest index
        { m with filteredByPaint := m.filteredByPaint + 1 }
    else if el.isContained then
      filterAndIndex previousSupplied rest index
        { m with filteredByContain := m.filteredByContain + 1 }
    else
      let el := { el with element := { el.element with index := index } }
      let el :=
        if !(m.previousNodeIDs.contains el.backendNodeID) && previousSupplied then
          { el with isNew := true }
        else el
      filterAndIndex previousSupplied rest (index + 1) (AddEnhanced m el)

/-- The successful-snapshot path of `ExtractEnhancedElementMap`
(dom/enhanced.go:143-244) after the two protocol calls: seed the map with
the page info and the previous snapshot's backend ids, parse the decoded
snapshot document, run the filter-and-index loop from index 0, and record
the candidate count. -/
def extractCore (doc : SnapshotDocument) (ax : ℤ → Option CDPAXNode)
    (previousMap : Option EnhancedElementMap) (pageURL pageTitle : String) :
    EnhancedElementMap :=
  let m0 :=
    { NewEnhancedElementMap with
      pageURL := pageURL, pageTitle := pageTitle
      previousNodeIDs :=
        match previousMap with
        | some p => p.backendNodeMap.map (fun b => b.1)
        | none => [] }
  let elements := parseSnapshotResponse doc ax
  let m := filterAndIndex previousMap.isSome elements 0 m0
  { m with totalElements := elements.length }

/-! ## Token serializer (dom/enhanced.go:764-844) -/

/-- One element's line of `ToTokenStringEnhanced` (dom/enhanced.go:801-840),
given the backend-node lookup table of its map.  The enhanced record is
looked up through the base element's (embedded) backend-node-id field. -/
def tokenEntryLine (backendNodeMap : List (ℤ × EnhancedElement)) (el : EnhancedElement) :
    String :=
  let baseEl := el.element
  let enhanced := assocLookup baseEl.backendNodeID backendNodeMap
  let prefixStr :=
    match enhanced with
    | some e => if e.isNew then "*" else ""
    | none => ""
  let s := prefixStr ++ "[" ++ toString baseEl.index ++ "] " ++ baseEl.tagName
  let s :=
    if baseEl.role ≠ "" ∧ baseEl.role ≠ baseEl.tagName then
      s ++ " role=" ++ baseEl.role
    else s
  let s :=
    if baseEl.name ≠ "" then s ++ " name=" ++ goQuote (truncate baseEl.name 50)
    else if baseEl.text ≠ "" then s ++ " " ++ goQuote (truncate baseEl.text 50)
    else if baseEl.ariaLabel ≠ "" then s ++ " aria=" ++ goQuote (truncate baseEl.ariaLabel 50)
    else if baseEl.placeholder ≠ "" then
      s ++ " placeholder=" ++ goQuote (truncate baseEl.placeholder 50)
    else s
  let s := if baseEl.type ≠ "" then s ++ " type=" ++ baseEl.type else s
  let s := if baseEl.href ≠ "" then s ++ " href=" ++ goQuote (truncate baseEl.href 80) else s
  let s :=
    match enhanced with
    | some e => if e.isScrollable then s ++ " |SCROLL|" else s
    | none => s
  let s := if !baseEl.isEnabled then s ++ " [disabled]" else s
  s ++ "\n"

/-- The element loop of `ToTokenStringEnhanced` (dom/enhanced.go:784-841):
skip invisible elements, stop once `maxElements > 0` entries were emitted. -/
def tokenLines (backendNodeMap : List (ℤ × EnhancedElement)) (maxElements : ℤ) :
    List EnhancedElement → ℤ → List String
  | [], _ => []
  | el :: rest, count =>
    if !el.element.isVisible then tokenLines backendNodeMap maxElements rest count
    else if maxElements > 0 ∧ count ≥ maxElements then []
    else tokenEntryLine backendNodeMap el :: tokenLines backendNodeMap maxElements rest (count + 1)

/-- The header line of `ToTokenStringEnhanced` (dom/enhanced.go:778-782):
the "X of Y shown" form appears only when `maxElements > 0` and the
visible count exceeds it. -/
def tokenHeaderLine (maxElements : ℤ) (visibleCount : ℕ) : String :=
  if maxElements > 0 ∧ (visibleCount : ℤ) > maxElements then
    "Elements (" ++ toString maxElements ++ " of " ++ toString visibleCount ++ " shown):\n"
  else
    "Elements (" ++ toString visibleCount ++ "):\n"

/-- `ToTokenStringEnhanced` (dom/enhanced.go:764). -/
def ToTokenStringEnhanced (m : EnhancedElementMap) (maxElements : ℤ) : String :=
  let visibleCount := (m.elements.filter (fun el => el.element.isVisible)).length
  "Page: " ++ m.pageTitle ++ "\n" ++ "URL: " ++ m.pageURL ++ "\n" ++
    tokenHeaderLine maxElements visibleCount ++
    String.join (tokenLines m.backendNodeMap maxElements m.elements 0)

/-! ## Screenshot annotation (screenshot/annotate.go)

The image codecs (`image.Decode`, `png.Encode`, `jpeg.Encode`) are Go
standard-library collaborators; `Annotate` takes them as arguments.  An
RGBA image is its bounds rectangle plus a pixel function; `img.Set`
silently ignores out-of-rect coordinates, as Go's does.  For the safety
claim the drawing helpers are additionally embedded as the explicit lists
of coordinates they write. -/

/-- An image rectangle; `image.Rectangle` with `Min`/`Max` corners. -/
structure GoRect where
  minX : ℤ
  minY : ℤ
  maxX : ℤ
  maxY : ℤ
deriving DecidableEq, Repr

def inRect (r : GoRect) (p : ℤ × ℤ) : Bool :=
  decide (r.minX ≤ p.1 ∧ p.1 < r.maxX ∧ r.minY ≤ p.2 ∧ p.2 < r.maxY)

/-- `clamp` (screenshot/annotate.go:275). -/
def clamp (val lo hi : ℤ) : ℤ := if val < lo then lo else if val > hi then hi else val

/-- The inclusive integer range `[a, b]`, empty when `b < a`; the
coordinate sets Go's `for` loops sweep. -/
def intRange (a b : ℤ) : List ℤ :=
  (List.range (b + 1 - a).toNat).map (fun (k : ℕ) => a + (k : ℤ))

structure RGBA where
  r : ℕ
  g : ℕ
  b : ℕ
  a : ℕ
deriving DecidableEq, Repr

/-- `AnnotationConfig` (screenshot/annotate.go:15). -/
structure AnnotationConfig where
  borderWidth : ℤ
  fontSize : ℤ
  showLabels : Bool
  showLabelsOnlyForUnlabeled : Bool
  linkColor : RGBA
  buttonColor : RGBA
  inputColor : RGBA
  defaultColor : RGBA
  labelBgColor : RGBA
  labelTextColor : RGBA
deriving DecidableEq, Repr

/-- `DefaultAnnotationConfig` (screenshot/annotate.go:38). -/
def DefaultAnnotationConfig : AnnotationConfig :=
  { borderWidth := 2, fontSize := 12, showLabels := true
    showLabelsOnlyForUnlabeled := false
    linkColor := ⟨76, 175, 80, 255⟩, buttonColor := ⟨33, 150, 243, 255⟩
    inputColor := ⟨255, 152, 0, 255⟩, defaultColor := ⟨156, 39, 176, 255⟩
    labelBgColor := ⟨0, 0, 0, 200⟩, labelTextColor := ⟨255, 255, 255, 255⟩ }

/-- The coordinates written by `drawBoundingBoxFromInfo`
(screenshot/annotate.go:133-173): the corners are truncated to int and
clamped into the rectangle, then four strips are swept.  The bottom and
right strips iterate downward in the source; only the coordinate sets
matter, every write stores the same colour. -/
def drawBoundingBoxWrites (r : GoRect) (bbox : BoundingBox) (borderWidth : ℤ) :
    List (ℤ × ℤ) :=
  let x0 := clamp (goInt bbox.x) r.minX (r.maxX - 1)
  let y0 := clamp (goInt bbox.y) r.minY (r.maxY - 1)
  let x1 := clamp (goInt (bbox.x + bbox.width)) r.minX (r.maxX - 1)
  let y1 := clamp (goInt (bbox.y + bbox.height)) r.minY (r.maxY - 1)
  ((intRange y0 (min (y0 + borderWidth - 1) y1)).map (fun y =>
    (intRange x0 x1).map (fun x => (x, y)))).flatten ++
  ((intRange (max (y1 - borderWidth + 1) y0) y1).map (fun y =>
    (intRange x0 x1).map (fun x => (x, y)))).flatten ++
  ((intRange x0 (min (x0 + borderWidth - 1) x1)).map (fun x =>
    (intRange y0 y1).map (fun y => (x, y)))).flatten ++
  ((intRange (max (x1 - borderWidth + 1) x0) x1).map (fun x =>
    (intRange y0 y1).map (fun y => (x, y)))).flatten

/-- The 5×7 bitmap patterns of `drawDigit` (screenshot/annotate.go:228). -/
def digitPatterns : List (List String) :=
  [["01110", "10001", "10001", "10001", "10001", "10001", "01110"],
   ["00100", "01100", "00100", "00100", "00100", "00100", "01110"],
   ["01110", "10001", "00001", "00110", "01000", "10000", "11111"],
   ["01110", "10001", "00001", "00110", "00001", "10001", "01110"],
   ["00010", "00110", "01010", "10010", "11111", "00010", "00010"],
   ["11111", "10000", "11110", "00001", "00001", "10001", "01110"],
   ["01110", "10000", "10000", "11110", "10001", "10001", "01110"],
   ["11111", "00001", "00010", "00100", "01000", "01000", "01000"],
   ["01110", "10001", "10001", "01110", "10001", "10001", "01110"],
   ["01110", "10001", "10001", "01111", "00001", "00001", "01110"]]

/-- The coordinates written by `drawDigit` (screenshot/annotate.go:226-272):
each "on" bitmap cell is scaled and painted as a block, every single write
guarded by an explicit in-bounds check. -/
def drawDigitWrites (r : GoRect) (digit : ℕ) (x y width height : ℤ) : List (ℤ × ℤ) :=
  if digit > 9 then []
  else
    let pattern := digitPatterns.getD digit []
    let scaleX : ℚ := (width : ℚ) / 5
    let scaleY : ℚ := (height : ℚ) / 7
    let cellWrites := fun (row col : ℕ) =>
      let px := x + goInt ((col : ℚ) * scaleX)
      let py := y + goInt ((row : ℚ) * scaleY)
      let block := ((intRange 0 (⌈scaleY⌉ - 1)).map (fun dy =>
        (intRange 0 (⌈scaleX⌉ - 1)).map (fun dx => (px + dx, py + dy)))).flatten
      block.filter (inRect r)
    let rowWrites := fun (row : ℕ) (line : String) =>
      ((line.data.enum.filter (fun colp => colp.2 == '1')).map (fun colp =>
        cellWrites row colp.1)).flatten
    (pattern.enum.map (fun rowp => rowWrites rowp.1 rowp.2)).flatten

/-- The decimal digit characters of Go's `fmt.Sprintf("%d", n)` for a
natural number, most significant first.  Structural fuel recursion; the
fuel `n + 1` always suffices since `n / 10 < n` for positive `n`. -/
def decimalDigitsCore : ℕ → ℕ → List ℕ
  | 0, _ => []
  | _ + 1, 0 => []
  | fuel + 1, n + 1 => decimalDigitsCore fuel ((n + 1) / 10) ++ [(n + 1) % 10]

def decimalDigits (n : ℕ) : List ℕ :=
  if n = 0 then [0] else decimalDigitsCore (n + 1) n

/-- The label characters of `fmt.Sprintf("%d", index)`: `none` stands for
the minus sign, which `drawIndexLabelFromInfo` skips (it advances the pen
without drawing). -/
def goLabelChars (index : ℤ) : List (Option ℕ) :=
  if index < 0 then none :: (decimalDigits index.natAbs).map some
  else (decimalDigits index.natAbs).map some

/-- The coordinates written by `drawIndexLabelFromInfo`
(screenshot/annotate.go:177-223): the label background sweep (bounds are
cut at `Max` by the loop conditions and at `Min` by the per-pixel guard)
followed by each digit's writes. -/
def drawIndexLabelWrites (r : GoRect) (index : ℤ) (bbox : BoundingBox)
    (cfg : AnnotationConfig) : List (ℤ × ℤ) :=
  let label := goLabelChars index
  let charWidth := Int.tdiv (cfg.fontSize * 7) 12
  let charHeight := cfg.fontSize
  let padding : ℤ := 2
  let labelWidth := (label.length : ℤ) * charWidth + padding * 2
  let labelHeight := charHeight + padding * 2
  let labelX := goInt (bbox.x + bbox.width / 2) - Int.tdiv labelWidth 2
  let labelY := goInt bbox.y - labelHeight - 2
  let labelY := if labelY < r.minY then goInt bbox.y + 2 else labelY
  let labelX := if labelX < r.minX then r.minX else labelX
  let labelX := if labelX + labelWidth > r.maxX then r.maxX - labelWidth else labelX
  let bg :=
    (((intRange labelY (min (labelY + labelHeight - 1) (r.maxY - 1))).filter
        (fun y => decide (y ≥ r.minY))).map (fun y =>
      ((intRange labelX (min (labelX + labelWidth - 1) (r.maxX - 1))).filter
          (fun x => decide (x ≥ r.minX))).map (fun x => (x, y)))).flatten
  let textY := labelY + padding
  let digits :=
    (label.enum.map (fun p =>
      match p.2 with
      | some d => drawDigitWrites r d (labelX + padding + (p.1 : ℤ) * charWidth) textY
          charWidth charHeight
      | none => [])).flatten
  bg ++ digits

/-- An RGBA raster: bounds plus pixel contents. -/
structure GoImage where
  rect : GoRect
  pix : ℤ → ℤ → RGBA

/-- `img.Set` over a write list: Go's `RGBA.Set` ignores out-of-rect
coordinates. -/
def setPixels (img : GoImage) (writes : List (ℤ × ℤ)) (c : RGBA) : GoImage :=
  { img with pix := fun x y =>
      if writes.contains (x, y) && inRect img.rect (x, y) then c else img.pix x y }

/-- The element view the annotation engine consumes (`ElementInfo` /
`ElementMapInterface` in the screenshot package: tag, role, text,
visibility, bounding box and index accessors). -/
structure AnnElement where
  tagName : String
  role : String
  text : String
  isVisible : Bool
  bbox : BoundingBox
  index : ℤ
deriving DecidableEq, Repr

/-- A bounding box is empty iff `width ≤ 0` or `height ≤ 0`
(`GetIsEmpty`, per the spec's box invariant §3). -/
def bboxIsEmpty (b : BoundingBox) : Bool := decide (b.width ≤ 0) || decide (b.height ≤ 0)

/-- `getElementColorFromInfo` (screenshot/annotate.go:110). -/
def getElementColorFromInfo (el : AnnElement) (cfg : AnnotationConfig) : RGBA :=
  if el.tagName = "a" then cfg.linkColor
  else if el.tagName = "button" then cfg.buttonColor
  else if el.tagName = "input" ∨ el.tagName = "textarea" ∨ el.tagName = "select" then
    cfg.inputColor
  else if el.role = "button" ∨ el.role = "menuitem" ∨ el.role = "tab" then cfg.buttonColor
  else if el.role = "link" then cfg.linkColor
  else if el.role = "textbox" ∨ el.role = "combobox" ∨ el.role = "searchbox" then
    cfg.inputColor
  else cfg.defaultColor

/-- The per-element drawing step of `Annotate` (screenshot/annotate.go:72-92). -/
def annotateElement (cfg : AnnotationConfig) (rgba : GoImage) (el : AnnElement) : GoImage :=
  if !el.isVisible || bboxIsEmpty el.bbox then rgba
  else
    let boxColor := getElementColorFromInfo el cfg
    let rgba := setPixels rgba (drawBoundingBoxWrites rgba.rect el.bbox cfg.borderWidth) boxColor
    if cfg.showLabels then
      if cfg.showLabelsOnlyForUnlabeled && decide (el.text ≠ "") then rgba
      else setPixels rgba (drawIndexLabelWrites rgba.rect el.index el.bbox cfg)
        cfg.labelBgColor
    else rgba

/-- `Annotate` (screenshot/annotate.go:55-107).  `decodeImage` stands for
`image.Decode` (yielding the raster and the format name), `encodePNG` /
`encodeJPEG` for the two encoders; a nil or empty element map returns the
input bytes untouched before any of them run.  The label draw writes two
colours (background then text); the write-set model paints them in one
pass, which the safety claim is about. -/
def Annotate (decodeImage : List ℕ → Except String (GoImage × String))
    (encodePNG encodeJPEG : GoImage → Except String (List ℕ))
    (imgData : List ℕ) (elementMap : Option (List AnnElement)) (cfg : AnnotationConfig) :
    Except String (List ℕ) :=
  match elementMap with
  | none => Except.ok imgData
  | some els =>
    if els.length = 0 then Except.ok imgData
    else
      match decodeImage imgData with
      | Except.error e => Except.error ("failed to decode image for annotation: " ++ e)
      | Except.ok (img, format) =>
        let rgba := els.foldl (annotateElement cfg) img
        match (if format = "png" then encodePNG rgba else encodeJPEG rgba) with
        | Except.error e => Except.error ("failed to encode annotated image: " ++ e)
        | Except.ok out => Except.ok out

/-! ## Decision helpers named for the proofs -/

/-- The occlusion decision for one element against a prefix, as the loop
takes it. -/
def occMark (pfx : List EnhancedElement) (el : EnhancedElement) : EnhancedElement :=
  if !boxNonEmpty el.element.boundingBox then el
  else if pfx.any (fun higher =>
      boxNonEmpty higher.element.boundingBox &&
        isSignificantlyOccluded el.element.boundingBox higher.element.boundingBox) then
    { el with isOccluded := true }
  else el

/-- The containment decision for one element at running position `pos`. -/
def conMark (all : List EnhancedElement) (pos : ℕ) (el : EnhancedElement) : EnhancedElement :=
  if !boxNonEmpty el.element.boundingBox then el
  else if containedScan el pos all 0 then { el with isContained := true }
  else el

/-- The backend-node ids of a previous map's lookup table (`nil` when no
previous map was supplied). -/
def prevBackendKeys (previousMap : Option EnhancedElementMap) : List ℤ :=
  match previousMap with
  | some p => p.backendNodeMap.map (fun b => b.1)
  | none => []

/-- A property slot carrying `disabled` with boolean value `true`
(the only shape of AX data that clears `isEnabled` in `mergeAXInfo`). -/
def axPropDisabledTrue (prop : AXProperty) : Bool :=
  match prop.value with
  | none => false
  | some v =>
    prop.name == "disabled" &&
      match v.value with
      | GoValue.ofBool b => b
      | _ => false

/-- Whether the AX node (when present) asserts `disabled=true`. -/
def axForcesDisabled (axNode : Option CDPAXNode) : Bool :=
  match axNode with
  | some n => n.properties.any axPropDisabledTrue
  | none => false

/-! ## Concrete instances used to evaluate the development -/

/-- The empty accessibility lookup (an AX fetch that failed or returned
nothing). -/
def emptyAXLookup : ℤ → Option CDPAXNode := fun _ => none

/-- The Go zero value of `EnhancedElement`. -/
def EnhancedElement.base : EnhancedElement :=
  { element := Element.zero, backendNodeID := 0, parentIndex := 0, depth := 0
    paintOrder := 0, isNew := false, isScrollable := false, scrollWidth := 0
    scrollHeight := 0, childCount := 0, isShadowRoot := false, axFocusable := false
    axEditable := false, axExpanded := none, axChecked := none, axSelected := none
    axRequired := false, axDisabled := false, axDescription := "", computedCursor := ""
    zIndex := 0, isOccluded := false, isContained := false }

/-- A decoded snapshot document with a single visible anchor node. -/
def sdoc : SnapshotDocument :=
  { nodes :=
      { parentIndex := [0], nodeType := [1], nodeName := [0], nodeValue := [-1]
        backendNodeId := [7], attributes := [[]], textValue := [-1], inputValue := [-1]
        isClickable := [true] }
    layout :=
      { nodeIndex := [0], bounds := [[0, 0, 10, 10]], paintOrders := [5]
        offsetRects := [], scrollRects := [], clientRects := [], styles := [[]] }
    stringsArr := ["A"] }

/-- The single element `sdoc` parses to. -/
def sdocElement : EnhancedElement := buildElement sdoc emptyAXLookup 0

/-- A candidate with non-empty bounds at paint order 5 (two copies of it
make a tie in the descending sort). -/
def c2el : EnhancedElement :=
  { EnhancedElement.base with
    element := { Element.zero with boundingBox := ⟨0, 0, 10, 10⟩ }
    paintOrder := 5 }

/-- An icon-sized candidate inside `c3outer` (the svg-in-button shape). -/
def c3inner : EnhancedElement :=
  { EnhancedElement.base with
    element := { Element.zero with boundingBox := ⟨8, 8, 24, 24⟩ } }

/-- An interactive button-sized candidate containing `c3inner`. -/
def c3outer : EnhancedElement :=
  { EnhancedElement.base with
    element :=
      { Element.zero with isInteractive := true, boundingBox := ⟨0, 0, 100, 40⟩ } }

/-- A decoded snapshot document with two visible buttons that carry the
same backend node id 5 but different names, at disjoint positions. -/
def c7doc : SnapshotDocument :=
  { nodes :=
      { parentIndex := [0, 0], nodeType := [1, 1], nodeName := [0, 0]
        nodeValue := [-1, -1], backendNodeId := [5, 5]
        attributes := [[1, 2], [1, 3]], textValue := [-1, -1], inputValue := [-1, -1]
        isClickable := [true, true] }
    layout :=
      { nodeIndex := [0, 1], bounds := [[0, 0, 10, 10], [100, 0, 10, 10]]
        paintOrders := [10, 1], offsetRects := [], scrollRects := [], clientRects := []
        styles := [[], []] }
    stringsArr := ["BUTTON", "name", "first", "second"] }

/-- The element `c7doc`'s first node parses to. -/
def c7e1 : EnhancedElement :=
  { EnhancedElement.base with
    element :=
      { Element.zero with
        tagName := "button", name := "first", isVisible := true, isEnabled := true
        isInteractive := true, selector := "button[name=\"first\"]"
        boundingBox := ⟨0, 0, 10, 10⟩ }
    backendNodeID := 5, paintOrder := 10 }

/-- The element `c7doc`'s second node parses to. -/
def c7e2 : EnhancedElement :=
  { EnhancedElement.base with
    element :=
      { Element.zero with
        tagName := "button", name := "second", isVisible := true, isEnabled := true
        isInteractive := true, selector := "button[name=\"second\"]"
        boundingBox := ⟨100, 0, 10, 10⟩ }
    backendNodeID := 5, paintOrder := 1 }

/-- `c7e1` as it sits in the extracted map (dense index 0). -/
def c7m1 : EnhancedElement :=
  { c7e1 with element := { c7e1.element with index := 0 } }

/-- `c7e2` as it sits in the extracted map (dense index 1). -/
def c7m2 : EnhancedElement :=
  { c7e2 with element := { c7e2.element with index := 1 } }

/-- A decoded snapshot document with a single button node carrying a
`disabled` attribute whose value is the empty string. -/
def c4doc : SnapshotDocument :=
  { nodes :=
      { parentIndex := [0], nodeType := [1], nodeName := [0], nodeValue := [-1]
        backendNodeId := [3], attributes := [[1, 2]], textValue := [-1]
        inputValue := [-1], isClickable := [true] }
    layout :=
      { nodeIndex := [0], bounds := [[0, 0, 10, 10]], paintOrders := [1]
        offsetRects := [], scrollRects := [], clientRects := [], styles := [[]] }
    stringsArr := ["BUTTON", "disabled", ""] }

/-- The claim's "node carries a `disabled` attribute (regardless of that
attribute's value)": some name slot of the node's flat attribute array
resolves to the given name. -/
def nodeHasAttrPairs (stringsArr : List String) (attrName : String) : List ℤ → Bool
  | nameIdx :: _valueIdx :: rest =>
    (decide (0 ≤ nameIdx) && decide (nameIdx < (stringsArr.length : ℤ)) &&
      (stringsArr.getD nameIdx.toNat "" == attrName)) ||
      nodeHasAttrPairs stringsArr attrName rest
  | _ => false

def nodeHasAttr (doc : SnapshotDocument) (i : ℕ) (attrName : String) : Bool :=
  nodeHasAttrPairs doc.stringsArr attrName (doc.nodes.attributes.getD i [])

/-! ## The geometric predicates versus the spec's ratio formulation -/

/-- When a box is empty in the filters' sense, every intersection ratio
against it degenerates to a non-positive value (`ℚ` division by zero is
zero), so the spec-side coverage condition is unsatisfiable. -/
theorem ratio_lt_of_empty (b o : BoundingBox) (hb : boxNonEmpty b = false) (q : ℚ)
    (hq : 0 < q) : ¬(interArea b o / boxArea b ≥ q) := by
  have hzero : interArea b o = 0 := by
    simp only [boxNonEmpty, Bool.and_eq_false_iff, decide_eq_false_iff_not, not_lt] at hb
    unfold interArea
    rcases hb with hb | hb
    · have h1 : min (b.x + b.width) (o.x + o.width) - max b.x o.x ≤ 0 := by
        have := min_le_left (b.x + b.width) (o.x + o.width)
        have := le_max_left b.x o.x
        linarith
      rw [max_eq_left h1, zero_mul]
    · have h1 : min (b.y + b.height) (o.y + o.height) - max b.y o.y ≤ 0 := by
        have := min_le_left (b.y + b.height) (o.y + o.height)
        have := le_max_left b.y o.y
        linarith
      rw [max_eq_left h1, mul_zero]
  rw [hzero, zero_div]
  exact fun h => absurd (lt_of_lt_of_le hq h) (lt_irrefl 0)

/-- The occlusion test of the code equals the spec's "intersection area
divided by area(e) is at least 0.9". -/
theorem isSignificantlyOccluded_eq_true_iff (t o : BoundingBox) :
    isSignificantlyOccluded t o = true ↔ interArea t o / boxArea t ≥ 9 / 10 := by
  unfold isSignificantlyOccluded interArea boxArea
  by_cases h : min (t.x + t.width) (o.x + o.width) ≤ max t.x o.x ∨
      min (t.y + t.height) (o.y + o.height) ≤ max t.y o.y
  · rw [if_pos h]
    have hz : max 0 (min (t.x + t.width) (o.x + o.width) - max t.x o.x) *
        max 0 (min (t.y + t.height) (o.y + o.height) - max t.y o.y) = 0 := by
      rcases h with h | h
      · rw [max_eq_left (by linarith : min (t.x + t.width) (o.x + o.width) - max t.x o.x ≤ 0),
          zero_mul]
      · rw [max_eq_left (by linarith : min (t.y + t.height) (o.y + o.height) - max t.y o.y ≤ 0),
          mul_zero]
    rw [hz, zero_div]
    norm_num
  · rw [if_neg h]
    push_neg at h
    obtain ⟨hx, hy⟩ := h
    rw [max_eq_right (by linarith : (0:ℚ) ≤ min (t.x + t.width) (o.x + o.width) - max t.x o.x),
      max_eq_right (by linarith : (0:ℚ) ≤ min (t.y + t.height) (o.y + o.height) - max t.y o.y)]
    simp [decide_eq_true_eq]

/-- The containment test of the code equals the spec's "intersection
divided by area(e) is at least the threshold", for any positive threshold. -/
theorem isContainedWithin_eq_true_iff (inner outer : BoundingBox) (threshold : ℚ)
    (hth : 0 < threshold) :
    isContainedWithin inner outer threshold = true ↔
      interArea inner outer / boxArea inner ≥ threshold := by
  unfold isContainedWithin interArea boxArea
  by_cases h : min (inner.x + inner.width) (outer.x + outer.width) ≤ max inner.x outer.x ∨
      min (inner.y + inner.height) (outer.y + outer.height) ≤ max inner.y outer.y
  · rw [if_pos h]
    have hz : max 0 (min (inner.x + inner.width) (outer.x + outer.width) - max inner.x outer.x) *
        max 0 (min (inner.y + inner.height) (outer.y + outer.height) - max inner.y outer.y) = 0 := by
      rcases h with h | h
      · rw [max_eq_left (by linarith :
          min (inner.x + inner.width) (outer.x + outer.width) - max inner.x outer.x ≤ 0), zero_mul]
      · rw [max_eq_left (by linarith :
          min (inner.y + inner.height) (outer.y + outer.height) - max inner.y outer.y ≤ 0), mul_zero]
    rw [hz, zero_div]
    simp only [Bool.false_eq_true, false_iff, ge_iff_le, not_le]
    exact hth
  · rw [if_neg h]
    push_neg at h
    obtain ⟨hx, hy⟩ := h
    have hw : 0 < inner.width := by
      have h1 := min_le_left (inner.x + inner.width) (outer.x + outer.width)
      have h2 := le_max_left inner.x outer.x
      linarith
    have hh : 0 < inner.height := by
      have h1 := min_le_left (inner.y + inner.height) (outer.y + outer.height)
      have h2 := le_max_left inner.y outer.y
      linarith
    rw [if_neg (not_le.mpr (mul_pos hw hh))]
    rw [max_eq_right (by linarith :
        (0:ℚ) ≤ min (inner.x + inner.width) (outer.x + outer.width) - max inner.x outer.x),
      max_eq_right (by linarith :
        (0:ℚ) ≤ min (inner.y + inner.height) (outer.y + outer.height) - max inner.y outer.y)]
    simp [decide_eq_true_eq]

/-! ## Characterizing the occlusion pass -/

/-- The occlusion scan of one element over a prefix depends only on the
prefix's bounding boxes. -/
theorem occScan_eq_of_bbox_eq (el : EnhancedElement) (seen₁ seen₂ : List EnhancedElement)
    (h : seen₁.map (fun e => e.element.boundingBox) = seen₂.map (fun e => e.element.boundingBox)) :
    (seen₁.any (fun higher =>
        boxNonEmpty higher.element.boundingBox &&
          isSignificantlyOccluded el.element.boundingBox higher.element.boundingBox)) =
      (seen₂.any (fun higher =>
        boxNonEmpty higher.element.boundingBox &&
          isSignificantlyOccluded el.element.boundingBox higher.element.boundingBox)) := by
  have hs : ∀ seen : List EnhancedElement,
      (seen.any (fun higher =>
        boxNonEmpty higher.element.boundingBox &&
          isSignificantlyOccluded el.element.boundingBox higher.element.boundingBox)) =
      ((seen.map (fun e => e.element.boundingBox)).any (fun b =>
        boxNonEmpty b && isSignificantlyOccluded el.element.boundingBox b)) := by
    intro seen
    induction seen with
    | nil => rfl
    | cons a t iht => simp only [List.any_cons, List.map_cons, iht]
  rw [hs, hs, h]

theorem occMark_boundingBox (pfx : List EnhancedElement) (el : EnhancedElement) :
    (occMark pfx el).element.boundingBox = el.element.boundingBox := by
  unfold occMark
  split
  · rfl
  · split <;> rfl

theorem markOccludedLoop_eq_of_bbox_eq (els : List EnhancedElement) :
    ∀ seen₁ seen₂ : List EnhancedElement,
    seen₁.map (fun e => e.element.boundingBox) = seen₂.map (fun e => e.element.boundingBox) →
    markOccludedLoop seen₁ els = markOccludedLoop seen₂ els := by
  induction els with
  | nil => intro _ _ _; rfl
  | cons el rest ih =>
    intro seen₁ seen₂ h
    simp only [markOccludedLoop]
    rw [occScan_eq_of_bbox_eq el seen₁ seen₂ h]
    congr 1
    exact ih _ _ (by simp only [List.map_append, h])

theorem markOccludedLoop_getElem (els : List EnhancedElement) :
    ∀ (seen : List EnhancedElement) (i : ℕ),
    (markOccludedLoop seen els)[i]? = (els[i]?).map (fun el => occMark (seen ++ els.take i) el) := by
  induction els with
  | nil => intro seen i; simp [markOccludedLoop]
  | cons el rest ih =>
    intro seen i
    match i with
    | 0 =>
      simp only [markOccludedLoop, List.getElem?_cons_zero, List.take_zero, List.append_nil,
        Option.map_some']
      rfl
    | i + 1 =>
      simp only [markOccludedLoop, List.getElem?_cons_succ, List.take_succ_cons]
      have hcongr : markOccludedLoop (seen ++ [occMark seen el]) rest =
          markOccludedLoop (seen ++ [el]) rest := by
        apply markOccludedLoop_eq_of_bbox_eq
        simp [occMark_boundingBox]
      calc (markOccludedLoop (seen ++ [occMark seen el]) rest)[i]?
          = (markOccludedLoop (seen ++ [el]) rest)[i]? := by rw [hcongr]
        _ = (rest[i]?).map (fun e => occMark ((seen ++ [el]) ++ rest.take i) e) := ih _ i
        _ = (rest[i]?).map (fun e => occMark (seen ++ (el :: rest.take i)) e) := by
            rw [List.append_assoc]; rfl

/-- The element the occlusion pass yields at position `i`: the original,
marked against the original prefix. -/
theorem markOccludedElements_getElem (els : List EnhancedElement) (i : ℕ) :
    (markOccludedElements els)[i]? = (els[i]?).map (fun el => occMark (els.take i) el) := by
  unfold markOccludedElements
  rw [markOccludedLoop_getElem els [] i]
  rfl

theorem mem_take_iff_exists_getElem {α : Type} (l : List α) (i : ℕ) (a : α) :
    a ∈ l.take i ↔ ∃ j, j < i ∧ l[j]? = some a := by
  constructor
  · intro hmem
    obtain ⟨j, hj⟩ := List.mem_iff_getElem?.mp hmem
    rw [List.getElem?_take] at hj
    by_cases hji : j < i
    · exact ⟨j, hji, by rwa [if_pos hji] at hj⟩
    · rw [if_neg hji] at hj; cases hj
  · rintro ⟨j, hji, hj⟩
    exact List.mem_iff_getElem?.mpr ⟨j, by rw [List.getElem?_take, if_pos hji]; exact hj⟩

/-- Claim C2, amended: in the occlusion pass over a list sorted by
descending paint order, an element `e` that arrives unmarked is marked
`isOccluded` exactly when some element earlier in the sorted order — hence
of paint order greater than **or equal to** `e`'s — has non-empty bounds
and covers `e` with intersection/area(e) ≥ 0.9.  (Marking happens on the
first such element; the flag records the same existential.) -/
theorem occlusion_marks_iff (els : List EnhancedElement)
    (hsorted : List.Pairwise (fun a b => b.paintOrder ≤ a.paintOrder) els)
    (i : ℕ) (el : EnhancedElement) (hel : els[i]? = some el)
    (h0 : el.isOccluded = false) :
    ((markOccludedElements els)[i]?.map (fun e => e.isOccluded) = some true ↔
      ∃ j h, j < i ∧ els[j]? = some h ∧ boxNonEmpty h.element.boundingBox = true ∧
        el.paintOrder ≤ h.paintOrder ∧
        interArea el.element.boundingBox h.element.boundingBox /
          boxArea el.element.boundingBox ≥ 9 / 10) := by
  have hmark := markOccludedElements_getElem els i
  rw [hel] at hmark
  rw [hmark]
  simp only [Option.map_some', Option.some.injEq]
  unfold occMark
  by_cases hne : boxNonEmpty el.element.boundingBox
  · rw [hne]
    simp only [Bool.not_true, Bool.false_eq_true, if_false]
    by_cases hany : (els.take i).any (fun higher =>
        boxNonEmpty higher.element.boundingBox &&
          isSignificantlyOccluded el.element.boundingBox higher.element.boundingBox)
    · rw [if_pos hany]
      simp only [true_iff]
      obtain ⟨h, hmem, hpred⟩ := List.any_eq_true.mp hany
      obtain ⟨hhne, hsig⟩ := Bool.and_eq_true_iff.mp hpred
      obtain ⟨j, hji, hjel⟩ := (mem_take_iff_exists_getElem els i h).mp hmem
      refine ⟨j, h, hji, hjel, hhne, ?_, ?_⟩
      · obtain ⟨hilen, hieq⟩ := List.getElem?_eq_some_iff.mp hel
        obtain ⟨hjlen, hjeq⟩ := List.getElem?_eq_some_iff.mp hjel
        have := List.pairwise_iff_getElem.mp hsorted j i hjlen hilen hji
        rwa [hieq, hjeq] at this
      · exact (isSignificantlyOccluded_eq_true_iff _ _).mp hsig
    · rw [if_neg hany, h0]
      simp only [Bool.false_eq_true, false_iff, not_exists]
      rintro j h ⟨hji, hjel, hhne, _, hcover⟩
      apply hany
      refine List.any_eq_true.mpr ⟨h, (mem_take_iff_exists_getElem els i h).mpr ⟨j, hji, hjel⟩, ?_⟩
      rw [hhne, (isSignificantlyOccluded_eq_true_iff _ _).mpr hcover]
      rfl
  · have hne' : boxNonEmpty el.element.boundingBox = false := by
      rwa [Bool.not_eq_true] at hne
    rw [hne']
    simp only [Bool.not_false, if_true, h0, Bool.false_eq_true, false_iff, not_exists]
    rintro j h ⟨_, _, _, _, hcover⟩
    exact ratio_lt_of_empty el.element.boundingBox h.element.boundingBox hne' (9 / 10)
      (by norm_num) hcover

/-! ## Characterizing the containment pass -/

theorem markContainedLoop_getElem (all : List EnhancedElement) (els : List EnhancedElement) :
    ∀ (k i : ℕ),
    (markContainedLoop all els k)[i]? = (els[i]?).map (fun el => conMark all (k + i) el) := by
  induction els with
  | nil => intro k i; simp [markContainedLoop]
  | cons el rest ih =>
    intro k i
    match i with
    | 0 => simp [markContainedLoop, conMark]
    | i + 1 =>
      simp only [markContainedLoop, List.getElem?_cons_succ]
      rw [ih (k + 1) i]
      have harith : k + 1 + i = k + (i + 1) := by omega
      rw [harith]

/-- The containment scan is the existential over positions past `j`. -/
theorem containedScan_eq_true_iff (el : EnhancedElement) (i : ℕ) :
    ∀ (l : List EnhancedElement) (j : ℕ),
    containedScan el i l j = true ↔
      ∃ k p, l[k]? = some p ∧ j + k ≠ i ∧ p.element.isInteractive = true ∧
        boxNonEmpty p.element.boundingBox = true ∧
        isContainedWithin el.element.boundingBox p.element.boundingBox
          defaultInteractiveConfig.containmentThreshold = true ∧
        el.element.boundingBox.width * el.element.boundingBox.height <
          p.element.boundingBox.width * p.element.boundingBox.height := by
  intro l
  induction l with
  | nil => intro j; simp [containedScan]
  | cons p rest ih =>
    intro j
    simp only [containedScan, Bool.or_eq_true, Bool.and_eq_true, decide_eq_true_eq]
    constructor
    · rintro (⟨⟨⟨⟨hji, hint⟩, hne⟩, hcon⟩, harea⟩ | htail)
      · exact ⟨0, p, by rw [List.getElem?_cons_zero], by omega, hint, hne, hcon, harea⟩
      · obtain ⟨k, q, hk, hki, rest'⟩ := (ih (j + 1)).mp htail
        exact ⟨k + 1, q, by rw [List.getElem?_cons_succ]; exact hk, by omega, rest'⟩
    · rintro ⟨k, q, hk, hki, hint, hne, hcon, harea⟩
      match k with
      | 0 =>
        left
        rw [List.getElem?_cons_zero, Option.some.injEq] at hk
        subst hk
        exact ⟨⟨⟨⟨by omega, hint⟩, hne⟩, hcon⟩, harea⟩
      | k + 1 =>
        right
        rw [List.getElem?_cons_succ] at hk
        exact (ih (j + 1)).mpr ⟨k, q, hk, by omega, hint, hne, hcon, harea⟩

/-- Claim C3: in the containment pass, an element `e` with non-empty
bounds that arrives unmarked is marked `isContained` exactly when some
other candidate `p` is interactive, has non-empty bounds, contains `e` to
intersection/area(e) ≥ 0.99, and has area strictly greater than `e`'s —
in particular equal-area containment never marks. -/
theorem containment_marks_iff (els : List EnhancedElement)
    (i : ℕ) (el : EnhancedElement) (hel : els[i]? = some el)
    (h0 : el.isContained = false) (hne : boxNonEmpty el.element.boundingBox = true) :
    ((markContainedElements els)[i]?.map (fun e => e.isContained) = some true ↔
      ∃ j p, els[j]? = some p ∧ j ≠ i ∧ p.element.isInteractive = true ∧
        boxNonEmpty p.element.boundingBox = true ∧
        interArea el.element.boundingBox p.element.boundingBox /
          boxArea el.element.boundingBox ≥ 99 / 100 ∧
        boxArea el.element.boundingBox < boxArea p.element.boundingBox) := by
  have hth : defaultInteractiveConfig.containmentThreshold = 99 / 100 := rfl
  have hmark := markContainedLoop_getElem els els 0 i
  unfold markContainedElements
  rw [hmark, hel]
  simp only [Option.map_some', Option.some.injEq, Nat.zero_add]
  unfold conMark
  rw [hne]
  simp only [Bool.not_true, Bool.false_eq_true, if_false]
  by_cases hscan : containedScan el i els 0
  · rw [if_pos hscan]
    simp only [true_iff]
    obtain ⟨k, p, hk, hki, hint, hpne, hcon, harea⟩ :=
      (containedScan_eq_true_iff el i els 0).mp hscan
    refine ⟨k, p, hk, by omega, hint, hpne, ?_, harea⟩
    rw [← hth]
    exact (isContainedWithin_eq_true_iff _ _ _ (by rw [hth]; norm_num)).mp hcon
  · rw [if_neg hscan, h0]
    simp only [Bool.false_eq_true, false_iff, not_exists]
    rintro j p ⟨hj, hji, hint, hpne, hcover, harea⟩
    apply hscan
    refine (containedScan_eq_true_iff el i els 0).mpr ⟨j, p, hj, by omega, hint, hpne, ?_, harea⟩
    exact (isContainedWithin_eq_true_iff _ _ _ (by rw [hth]; norm_num)).mpr (by rw [hth]; exact hcover)

/-! ## The filter-and-index loop -/

/-- Each candidate lands in exactly one bucket: the map, or one of the
three filtered counters. -/
theorem filterAndIndex_count (ps : Bool) :
    ∀ (els : List EnhancedElement) (idx : ℤ) (m : EnhancedElementMap),
    (filterAndIndex ps els idx m).elements.length +
      (filterAndIndex ps els idx m).filteredByHidden +
      (filterAndIndex ps els idx m).filteredByPaint +
      (filterAndIndex ps els idx m).filteredByContain =
    m.elements.length + m.filteredByHidden + m.filteredByPaint + m.filteredByContain +
      els.length := by
  intro els
  induction els with
  | nil => intro idx m; simp [filterAndIndex]
  | cons el rest ih =>
    intro idx m
    simp only [filterAndIndex]
    split_ifs with h1 h2 h3 h4 <;> rw [ih] <;>
      (try simp only [AddEnhanced, List.length_append, List.length_cons, List.length_nil]) <;>
      omega

/-- Elements the loop has added carry the dense index equal to their
position and survive only with clear filter flags. -/
theorem filterAndIndex_elements_ok (ps : Bool) :
    ∀ (els : List EnhancedElement) (idx : ℤ) (m : EnhancedElementMap),
    idx = (m.elements.length : ℤ) →
    (∀ (i : ℕ) (el : EnhancedElement), m.elements[i]? = some el →
      el.element.index = (i : ℤ) ∧ el.isOccluded = false ∧
      el.isContained = false ∧ el.element.isInteractive = true ∧ el.element.isVisible = true) →
    ∀ (i : ℕ) (el : EnhancedElement), (filterAndIndex ps els idx m).elements[i]? = some el →
      el.element.index = (i : ℤ) ∧ el.isOccluded = false ∧ el.isContained = false ∧
      el.element.isInteractive = true ∧ el.element.isVisible = true := by
  intro els
  induction els with
  | nil =>
    intro idx m hidx hm
    simpa [filterAndIndex] using hm
  | cons el rest ih =>
    intro idx m hidx hm
    simp only [filterAndIndex]
    split_ifs with h1 h2 h3 h4
    · exact ih idx _ hidx hm
    · exact ih idx _ hidx hm
    · exact ih idx _ hidx hm
    all_goals {
      apply ih (idx + 1)
      · simp only [AddEnhanced, List.length_append, List.length_cons, List.length_nil]
        push_cast
        omega
      · intro i e hie
        simp only [AddEnhanced] at hie
        by_cases hi : i < m.elements.length
        · rw [List.getElem?_append, if_pos hi] at hie
          exact hm i e hie
        · rw [List.getElem?_append, if_neg hi] at hie
          have hi0 : i - m.elements.length = 0 := by
            by_contra hne0
            rw [List.getElem?_eq_none (by simp only [List.length_cons, List.length_nil]; omega)]
              at hie
            cases hie
          rw [hi0, List.getElem?_cons_zero, Option.some.injEq] at hie
          subst hie
          have hi' : i = m.elements.length := by omega
          subst hi'
          simp only [Bool.not_eq_true, Bool.or_eq_false_iff, Bool.not_eq_false'] at h1
          simp only [Bool.not_eq_true] at h2 h3
          exact ⟨by rw [hidx], h2, h3, h1.1, h1.2⟩
    }

/-- The loop sets `isNew` exactly on candidates whose backend id escaped
the previous snapshot's ids, and only when one was supplied; candidates
arrive with `isNew = false` from the parser. -/
theorem filterAndIndex_isNew (ps : Bool) (pids : List ℤ) :
    ∀ (els : List EnhancedElement) (idx : ℤ) (m : EnhancedElementMap),
    m.previousNodeIDs = pids →
    (∀ el ∈ els, el.isNew = false) →
    (∀ el ∈ m.elements, (el.isNew = true ↔ ps = true ∧ pids.contains el.backendNodeID = false)) →
    ∀ el ∈ (filterAndIndex ps els idx m).elements,
      (el.isNew = true ↔ ps = true ∧ pids.contains el.backendNodeID = false) := by
  intro els
  induction els with
  | nil =>
    intro idx m _ _ hm
    simpa [filterAndIndex] using hm
  | cons el rest ih =>
    intro idx m hpids hels hm
    have helsrest : ∀ e ∈ rest, e.isNew = false := fun e he => hels e (List.mem_cons_of_mem el he)
    have hel0 : el.isNew = false := hels el (List.mem_cons_self el rest)
    simp only [filterAndIndex]
    split_ifs with h1 h2 h3 h4
    · exact ih idx _ hpids helsrest hm
    · exact ih idx _ hpids helsrest hm
    · exact ih idx _ hpids helsrest hm
    · -- marked new: the contains test failed and a previous map was supplied
      apply ih (idx + 1)
      · exact hpids
      · exact helsrest
      intro e he
      simp only [AddEnhanced] at he
      rcases List.mem_append.mp he with he | he
      · exact hm e he
      · rw [List.mem_singleton] at he
        subst he
        simp only [Bool.and_eq_true, Bool.not_eq_true'] at h4
        rw [hpids] at h4
        simp only [true_iff]
        exact ⟨h4.2, h4.1⟩
    · -- not marked: either no previous map or the id was present
      apply ih (idx + 1)
      · exact hpids
      · exact helsrest
      intro e he
      simp only [AddEnhanced] at he
      rcases List.mem_append.mp he with he | he
      · exact hm e he
      · rw [List.mem_singleton] at he
        subst he
        simp only [hel0, Bool.false_eq_true, false_iff]
        rintro ⟨hps, hcont⟩
        apply h4
        rw [hpids, hps, hcont]
        rfl

/-- Splitting a decomposition of `xs ++ [a]`: either the distinguished
element is the appended one, or the decomposition lives inside `xs`. -/
theorem append_singleton_decomp {α : Type} (xs : List α) (a : α) (l1 : List α) (b : α)
    (l2 : List α) (h : xs ++ [a] = l1 ++ b :: l2) :
    (l2 = [] ∧ b = a ∧ l1 = xs) ∨ ∃ l2', l2 = l2' ++ [a] ∧ xs = l1 ++ b :: l2' := by
  rcases List.eq_nil_or_concat l2 with h2 | ⟨l2', a', h2⟩
  · subst h2
    left
    have hlast := congrArg List.getLast? h
    rw [List.getLast?_concat, List.getLast?_concat] at hlast
    have hdrop := congrArg List.dropLast h
    rw [List.dropLast_concat, List.dropLast_concat] at hdrop
    exact ⟨rfl, (Option.some.injEq _ _ ▸ hlast).symm, hdrop.symm⟩
  · subst h2
    simp only [List.concat_eq_append] at h ⊢
    right
    refine ⟨l2', ?_, ?_⟩
    · have hassoc : l1 ++ b :: (l2' ++ [a']) = (l1 ++ b :: l2') ++ [a'] := by
        simp [List.append_assoc]
      rw [hassoc] at h
      have hlast := congrArg List.getLast? h
      rw [List.getLast?_concat, List.getLast?_concat] at hlast
      have : a = a' := by simpa using hlast
      rw [this]
    · have hassoc : l1 ++ b :: (l2' ++ [a']) = (l1 ++ b :: l2') ++ [a'] := by
        simp [List.append_assoc]
      rw [hassoc] at h
      have hdrop := congrArg List.dropLast h
      rwa [List.dropLast_concat, List.dropLast_concat] at hdrop

/-- Through the loop, the backend-node table maps each positive id to the
most recently added element carrying it. -/
theorem filterAndIndex_backendNodeMap (ps : Bool) :
    ∀ (els : List EnhancedElement) (idx : ℤ) (m : EnhancedElementMap),
    (∀ (l1 : List EnhancedElement) (el : EnhancedElement) (l2 : List EnhancedElement),
      m.elements = l1 ++ el :: l2 → el.backendNodeID > 0 →
      (∀ e2 ∈ l2, e2.backendNodeID ≠ el.backendNodeID) →
      assocLookup el.backendNodeID m.backendNodeMap = some el) →
    ∀ (l1 : List EnhancedElement) (el : EnhancedElement) (l2 : List EnhancedElement),
      (filterAndIndex ps els idx m).elements = l1 ++ el :: l2 →
      el.backendNodeID > 0 →
      (∀ e2 ∈ l2, e2.backendNodeID ≠ el.backendNodeID) →
      assocLookup el.backendNodeID (filterAndIndex ps els idx m).backendNodeMap = some el := by
  intro els
  induction els with
  | nil =>
    intro idx m hm
    simpa [filterAndIndex] using hm
  | cons el rest ih =>
    intro idx m hm
    simp only [filterAndIndex]
    split_ifs with h1 h2 h3 h4
    · exact ih idx _ hm
    · exact ih idx _ hm
    · exact ih idx _ hm
    all_goals {
      apply ih (idx + 1)
      intro l1 e l2 hdec hpos hnolater
      simp only [AddEnhanced] at hdec ⊢
      rcases append_singleton_decomp _ _ _ _ _ hdec with ⟨hnil, hbe, hl1⟩ | ⟨l2', hl2, hxs⟩
      · subst hbe
        rw [if_pos hpos]
        simp [assocLookup]
      · have hXne := hnolater _ (by
          rw [hl2]; exact List.mem_append_right l2' (List.mem_singleton.mpr rfl))
        have hold := hm l1 e l2' hxs hpos
          (fun e2 he2 => hnolater e2 (by rw [hl2]; exact List.mem_append_left _ he2))
        split
        · simp only [assocLookup]
          rw [if_neg (fun hq => hXne hq.symm)]
          exact hold
        · exact hold
    }

/-! ## Parser output arrives with `isNew = false` -/

theorem applyAXProperty_isNew (el : EnhancedElement) (prop : AXProperty) :
    (applyAXProperty el prop).isNew = el.isNew := by
  unfold applyAXProperty
  rcases prop with ⟨name, value⟩
  rcases value with _ | ⟨gv⟩
  · rfl
  · rcases gv with b | s | _ <;> (simp only; split_ifs <;> rfl)

theorem mergeAXInfo_isNew (el : EnhancedElement) (axNode : CDPAXNode) :
    (mergeAXInfo el axNode).isNew = el.isNew := by
  unfold mergeAXInfo
  have hfold : ∀ (props : List AXProperty) (e : EnhancedElement),
      (props.foldl applyAXProperty e).isNew = e.isNew := by
    intro props
    induction props with
    | nil => intro e; rfl
    | cons p rest ihp => intro e; rw [List.foldl_cons, ihp, applyAXProperty_isNew]
  rw [hfold]
  rcases axNode with ⟨_, role, nm, desc, _⟩
  rcases nm with _ | ⟨gv⟩ <;> rcases desc with _ | ⟨gv'⟩ <;>
    rcases role with _ | ⟨gv''⟩ <;>
    simp only <;>
    (try rcases gv with b | s | _) <;> (try rcases gv' with b' | s' | _) <;>
    (try rcases gv'' with b'' | s'' | _) <;>
    first
    | (split_ifs <;> rfl)
    | rfl

theorem applyAXLookup_isNew (ax : ℤ → Option CDPAXNode) (backendNodeID : ℤ)
    (el : EnhancedElement) : (applyAXLookup ax backendNodeID el).isNew = el.isNew := by
  unfold applyAXLookup
  split
  · rw [mergeAXInfo_isNew]
  · rfl

theorem applySelector_isNew (tagName id name : String) (el : EnhancedElement) :
    (applySelector tagName id name el).isNew = el.isNew := by
  unfold applySelector
  split_ifs <;> rfl

theorem applyBBox_isNew (bbox : Option BoundingBox) (el : EnhancedElement) :
    (applyBBox bbox el).isNew = el.isNew := by
  unfold applyBBox
  split <;> rfl

theorem buildElement_isNew (doc : SnapshotDocument) (ax : ℤ → Option CDPAXNode) (i : ℕ) :
    (buildElement doc ax i).isNew = false := by
  unfold buildElement
  simp only
  rw [applyBBox_isNew, applySelector_isNew, applyAXLookup_isNew]

theorem mem_insertByPaint (a el : EnhancedElement) :
    ∀ l : List EnhancedElement, a ∈ insertByPaint el l ↔ a = el ∨ a ∈ l := by
  intro l
  induction l with
  | nil => simp [insertByPaint]
  | cons h t iht =>
    simp only [insertByPaint]
    split_ifs
    · simp
    · simp only [List.mem_cons, iht]
      tauto

theorem mem_sortByPaintOrder (a : EnhancedElement) :
    ∀ l : List EnhancedElement, a ∈ sortByPaintOrder l ↔ a ∈ l := by
  intro l
  induction l with
  | nil => simp [sortByPaintOrder]
  | cons h t iht =>
    simp only [sortByPaintOrder, mem_insertByPaint, iht, List.mem_cons]

theorem occMark_isNew (pfx : List EnhancedElement) (el : EnhancedElement) :
    (occMark pfx el).isNew = el.isNew := by
  unfold occMark; split_ifs <;> rfl

theorem conMark_isNew (all : List EnhancedElement) (pos : ℕ) (el : EnhancedElement) :
    (conMark all pos el).isNew = el.isNew := by
  unfold conMark; split_ifs <;> rfl

theorem mem_markOccludedElements_isNew (els : List EnhancedElement)
    (e : EnhancedElement) (he : e ∈ markOccludedElements els) :
    ∃ el ∈ els, e.isNew = el.isNew := by
  obtain ⟨i, hi⟩ := List.mem_iff_getElem?.mp he
  rw [markOccludedElements_getElem] at hi
  match hels : els[i]? with
  | none => rw [hels] at hi; cases hi
  | some el =>
    rw [hels] at hi
    simp only [Option.map_some', Option.some.injEq] at hi
    refine ⟨el, List.mem_iff_getElem?.mpr ⟨i, hels⟩, ?_⟩
    rw [← hi, occMark_isNew]

theorem mem_markContainedElements_isNew (els : List EnhancedElement)
    (e : EnhancedElement) (he : e ∈ markContainedElements els) :
    ∃ el ∈ els, e.isNew = el.isNew := by
  obtain ⟨i, hi⟩ := List.mem_iff_getElem?.mp he
  unfold markContainedElements at hi
  rw [markContainedLoop_getElem] at hi
  match hels : els[i]? with
  | none => rw [hels] at hi; cases hi
  | some el =>
    rw [hels] at hi
    simp only [Option.map_some', Option.some.injEq] at hi
    refine ⟨el, List.mem_iff_getElem?.mpr ⟨i, hels⟩, ?_⟩
    rw [← hi, conMark_isNew]

/-- Every candidate the parser yields has `isNew = false`; the flag is
only ever set by the cross-snapshot diff in the extraction loop. -/
theorem parseSnapshotResponse_isNew (doc : SnapshotDocument) (ax : ℤ → Option CDPAXNode) :
    ∀ el ∈ parseSnapshotResponse doc ax, el.isNew = false := by
  intro el hel
  unfold parseSnapshotResponse at hel
  obtain ⟨e1, he1, hnew1⟩ := mem_markContainedElements_isNew _ el hel
  obtain ⟨e2, he2, hnew2⟩ := mem_markOccludedElements_isNew _ e1 he1
  rw [mem_sortByPaintOrder] at he2
  obtain ⟨i, _, hbuild⟩ := List.mem_map.mp he2
  rw [hnew1, hnew2, ← hbuild, buildElement_isNew]

/-- Claim C1: in every map extraction builds from a successfully parsed
snapshot, each element's `index` equals its position in the ordered list
(so indices are contiguous from 0), and no element carries `isOccluded`,
`isContained`, `isInteractive = false` or `isVisible = false`. -/
theorem extract_map_invariants (doc : SnapshotDocument) (ax : ℤ → Option CDPAXNode)
    (previousMap : Option EnhancedElementMap) (pageURL pageTitle : String) :
    ∀ (i : ℕ) (el : EnhancedElement),
      (extractCore doc ax previousMap pageURL pageTitle).elements[i]? = some el →
      el.element.index = (i : ℤ) ∧ el.isOccluded = false ∧ el.isContained = false ∧
      el.element.isInteractive = true ∧ el.element.isVisible = true := by
  intro i el hel
  unfold extractCore at hel
  refine filterAndIndex_elements_ok previousMap.isSome (parseSnapshotResponse doc ax) 0 _
    ?_ ?_ i el hel
  · simp [NewEnhancedElementMap]
  · intro j e hj
    simp [NewEnhancedElementMap] at hj

/-- Claim C5: an element of an extracted map is `isNew` exactly when a
previous map was supplied and its backend-node id is not a key of the
previous map's backend-node table; in particular `isNew` never holds when
no previous map was supplied. -/
theorem extract_isNew_iff (doc : SnapshotDocument) (ax : ℤ → Option CDPAXNode)
    (previousMap : Option EnhancedElementMap) (pageURL pageTitle : String) :
    ∀ el ∈ (extractCore doc ax previousMap pageURL pageTitle).elements,
      (el.isNew = true ↔
        previousMap.isSome = true ∧
          (prevBackendKeys previousMap).contains el.backendNodeID = false) := by
  intro el hel
  unfold extractCore at hel
  refine filterAndIndex_isNew previousMap.isSome (prevBackendKeys previousMap)
    (parseSnapshotResponse doc ax) 0 _ ?_ (parseSnapshotResponse_isNew doc ax) ?_ el hel
  · cases previousMap <;> rfl
  · intro e he
    simp [NewEnhancedElementMap] at he

/-- Claim C6: the extracted map's element count plus the three filter
counters equals `totalElements`, which is the number of candidates the
parser produced. -/
theorem extract_counters_sum (doc : SnapshotDocument) (ax : ℤ → Option CDPAXNode)
    (previousMap : Option EnhancedElementMap) (pageURL pageTitle : String) :
    (extractCore doc ax previousMap pageURL pageTitle).elements.length +
      (extractCore doc ax previousMap pageURL pageTitle).filteredByHidden +
      (extractCore doc ax previousMap pageURL pageTitle).filteredByPaint +
      (extractCore doc ax previousMap pageURL pageTitle).filteredByContain =
    (extractCore doc ax previousMap pageURL pageTitle).totalElements ∧
    (extractCore doc ax previousMap pageURL pageTitle).totalElements =
      (parseSnapshotResponse doc ax).length := by
  constructor
  · have h := filterAndIndex_count previousMap.isSome (parseSnapshotResponse doc ax) 0
      { NewEnhancedElementMap with
        pageURL := pageURL, pageTitle := pageTitle
        previousNodeIDs := prevBackendKeys previousMap }
    simp only [NewEnhancedElementMap, List.length_nil, Nat.zero_add, Nat.add_zero] at h
    exact h
  · rfl

/-- Claim C7, amended: in every extracted map, the backend-node lookup
table maps the id of an element `el` with `backendNodeID > 0` back to `el`
itself provided no element added after `el` carries the same id — the
table holds the most recently added element per id, so among duplicate
ids only the last one is mapped to itself. -/
theorem extract_backendNodeMap_last (doc : SnapshotDocument) (ax : ℤ → Option CDPAXNode)
    (previousMap : Option EnhancedElementMap) (pageURL pageTitle : String) :
    ∀ (l1 : List EnhancedElement) (el : EnhancedElement) (l2 : List EnhancedElement),
      (extractCore doc ax previousMap pageURL pageTitle).elements = l1 ++ el :: l2 →
      el.backendNodeID > 0 →
      (∀ e2 ∈ l2, e2.backendNodeID ≠ el.backendNodeID) →
      assocLookup el.backendNodeID
        (extractCore doc ax previousMap pageURL pageTitle).backendNodeMap = some el := by
  intro l1 el l2 hdec hpos hnolater
  unfold extractCore at hdec ⊢
  refine filterAndIndex_backendNodeMap previousMap.isSome (parseSnapshotResponse doc ax) 0 _
    ?_ l1 el l2 hdec hpos hnolater
  intro l1' e l2' hd
  exfalso
  simp only [NewEnhancedElementMap] at hd
  rcases l1' with _ | ⟨x, t⟩ <;> simp at hd

/-! ## The enabled state (claim C4) -/

theorem applyAXProperty_isEnabled (el : EnhancedElement) (prop : AXProperty) :
    (applyAXProperty el prop).element.isEnabled =
      (el.element.isEnabled && !(axPropDisabledTrue prop)) := by
  unfold applyAXProperty axPropDisabledTrue
  rcases prop with ⟨name, value⟩
  rcases value with _ | ⟨gv⟩
  · simp
  · simp only
    by_cases hd : name = "disabled"
    · subst hd
      rcases gv with b | s | _
      · simp only [if_neg (by decide : ¬("disabled" : String) = "focusable"),
          if_neg (by decide : ¬("disabled" : String) = "editable"),
          if_neg (by decide : ¬("disabled" : String) = "expanded"),
          if_neg (by decide : ¬("disabled" : String) = "checked"),
          if_neg (by decide : ¬("disabled" : String) = "selected"),
          if_neg (by decide : ¬("disabled" : String) = "required"),
          if_pos (rfl : ("disabled" : String) = "disabled")]
        cases b <;> simp
      · simp
      · simp
    · have hbeq : (name == "disabled") = false := beq_eq_false_iff_ne.mpr hd
      rw [if_neg hd]
      rcases gv with b | s | _ <;> split_ifs <;> simp [hbeq]

theorem mergeAXInfo_isEnabled (el : EnhancedElement) (axNode : CDPAXNode) :
    (mergeAXInfo el axNode).element.isEnabled =
      (el.element.isEnabled && !(axNode.properties.any axPropDisabledTrue)) := by
  unfold mergeAXInfo
  have hfold : ∀ (props : List AXProperty) (e : EnhancedElement),
      ((props.foldl applyAXProperty e).element.isEnabled =
        (e.element.isEnabled && !(props.any axPropDisabledTrue))) := by
    intro props
    induction props with
    | nil => intro e; simp
    | cons p rest ihp =>
      intro e
      rw [List.foldl_cons, ihp, applyAXProperty_isEnabled, List.any_cons]
      cases axPropDisabledTrue p <;> cases rest.any axPropDisabledTrue <;>
        cases e.element.isEnabled <;> rfl
  rw [hfold]
  rcases axNode with ⟨_, role, nm, desc, props⟩
  rcases nm with _ | ⟨gv⟩ <;> rcases desc with _ | ⟨gv'⟩ <;>
    rcases role with _ | ⟨gv''⟩ <;>
    simp only <;>
    (try rcases gv with b | s | _) <;> (try rcases gv' with b' | s' | _) <;>
    (try rcases gv'' with b'' | s'' | _) <;>
    first
    | (split_ifs <;> rfl)
    | rfl

theorem applyAXLookup_isEnabled (ax : ℤ → Option CDPAXNode) (backendNodeID : ℤ)
    (el : EnhancedElement) : (applyAXLookup ax backendNodeID el).element.isEnabled =
      (el.element.isEnabled && !(axForcesDisabled (ax backendNodeID))) := by
  unfold applyAXLookup axForcesDisabled
  split
  · rw [mergeAXInfo_isEnabled]
  · rw [Bool.not_false, Bool.and_true]

theorem applySelector_isEnabled (tagName id name : String) (el : EnhancedElement) :
    (applySelector tagName id name el).element.isEnabled = el.element.isEnabled := by
  unfold applySelector
  split_ifs <;> rfl

theorem applyBBox_isEnabled (bbox : Option BoundingBox) (el : EnhancedElement) :
    (applyBBox bbox el).element.isEnabled = el.element.isEnabled := by
  unfold applyBBox
  split <;> rfl

theorem buildElement_isEnabled_eq (doc : SnapshotDocument) (ax : ℤ → Option CDPAXNode)
    (i : ℕ) :
    (buildElement doc ax i).element.isEnabled =
      ((decide (getAttr doc i "disabled" = "") &&
        decide (getAttr doc i "aria-disabled" ≠ "true")) &&
        !(axForcesDisabled (ax (nodeBackendID doc i)))) := by
  unfold buildElement
  simp only
  rw [applyBBox_isEnabled, applySelector_isEnabled, applyAXLookup_isEnabled]

/-- Claim C4, amended: a parsed node's `isEnabled` is true exactly when
the `disabled` attribute resolves to the empty string (absent, or present
with an empty or unresolvable value), the `aria-disabled` attribute does
not resolve to `"true"`, and the node's AX entry does not assert a boolean
`disabled=true` property. -/
theorem isEnabled_characterization (doc : SnapshotDocument) (ax : ℤ → Option CDPAXNode)
    (i : ℕ) :
    (buildElement doc ax i).element.isEnabled = true ↔
      (getAttr doc i "disabled" = "" ∧ getAttr doc i "aria-disabled" ≠ "true" ∧
        axForcesDisabled (ax (nodeBackendID doc i)) = false) := by
  rw [buildElement_isEnabled_eq]
  simp only [Bool.and_eq_true, decide_eq_true_eq, Bool.not_eq_true']
  tauto

/-! ## The token serializer (claim C8) -/

/-- The element loop equals taking the first `maxElements - count` visible
elements. -/
theorem tokenLines_eq_take (backendNodeMap : List (ℤ × EnhancedElement)) (maxElements : ℤ)
    (hpos : 0 < maxElements) :
    ∀ (els : List EnhancedElement) (count : ℤ), 0 ≤ count → count ≤ maxElements →
    tokenLines backendNodeMap maxElements els count =
      ((els.filter (fun el => el.element.isVisible)).take (maxElements - count).toNat).map
        (tokenEntryLine backendNodeMap) := by
  intro els
  induction els with
  | nil => intro count _ _; simp [tokenLines]
  | cons el rest ih =>
    intro count h0 hle
    simp only [tokenLines]
    by_cases hvis : el.element.isVisible
    · simp only [hvis, Bool.not_true, Bool.false_eq_true, if_false, List.filter_cons_of_pos]
      by_cases hcut : maxElements > 0 ∧ count ≥ maxElements
      · rw [if_pos hcut]
        have : (maxElements - count).toNat = 0 := by omega
        rw [this, List.take_zero, List.map_nil]
      · rw [if_neg hcut]
        have hlt : count < maxElements := by
          rcases not_and_or.mp hcut with h | h
          · exact absurd hpos h
          · omega
        rw [ih (count + 1) (by omega) (by omega)]
        have : (maxElements - count).toNat = ((maxElements - (count + 1)).toNat) + 1 := by omega
        rw [this, List.take_succ_cons, List.map_cons]
    · simp only [hvis, Bool.not_false, if_true]
      rw [ih count h0 hle]
      rw [List.filter_cons_of_neg (by simp [hvis])]

/-- Claim C8, amended: for `maxElements > 0` the serialization emits
exactly the first `min maxElements (visible count)` visible entries, and
its header takes the "X of Y shown" form exactly when the visible count
exceeds `maxElements`; otherwise it is the plain "Elements (N):" form. -/
theorem token_serialization_truncates (m : EnhancedElementMap) (maxElements : ℤ)
    (hpos : 0 < maxElements) :
    ToTokenStringEnhanced m maxElements =
      "Page: " ++ m.pageTitle ++ "\n" ++ "URL: " ++ m.pageURL ++ "\n" ++
      (if ((m.elements.filter (fun el => el.element.isVisible)).length : ℤ) > maxElements then
        "Elements (" ++ toString maxElements ++ " of " ++
          toString (m.elements.filter (fun el => el.element.isVisible)).length ++ " shown):\n"
      else
        "Elements (" ++
          toString (m.elements.filter (fun el => el.element.isVisible)).length ++ "):\n") ++
      String.join
        (((m.elements.filter (fun el => el.element.isVisible)).take maxElements.toNat).map
          (tokenEntryLine m.backendNodeMap)) := by
  simp only [ToTokenStringEnhanced, tokenHeaderLine]
  rw [tokenLines_eq_take m.backendNodeMap maxElements hpos m.elements 0 le_rfl (by omega)]
  have harg : (maxElements - 0).toNat = maxElements.toNat := by omega
  rw [harg]
  by_cases hgt : ((m.elements.filter (fun el => el.element.isVisible)).length : ℤ) > maxElements
  · rw [if_pos hgt,
      if_pos (show maxElements > 0 ∧
        ((m.elements.filter (fun el => el.element.isVisible)).length : ℤ) > maxElements from
        ⟨hpos, hgt⟩)]
  · rw [if_neg hgt,
      if_neg (show ¬(maxElements > 0 ∧
        ((m.elements.filter (fun el => el.element.isVisible)).length : ℤ) > maxElements) from
        fun hc => hgt hc.2)]

/-! ## Annotation (claims C9, C10) -/

/-- Claim C9: when the element map is nil or empty, `Annotate` returns the
original input bytes unchanged and no error — before any decode or encode
runs. -/
theorem annotate_empty_map_identity (decodeImage : List ℕ → Except String (GoImage × String))
    (encodePNG encodeJPEG : GoImage → Except String (List ℕ)) (imgData : List ℕ)
    (elementMap : Option (List AnnElement)) (cfg : AnnotationConfig)
    (h : ∀ l, elementMap = some l → l.length = 0) :
    Annotate decodeImage encodePNG encodeJPEG imgData elementMap cfg =
      Except.ok imgData := by
  cases elementMap with
  | none => rfl
  | some l =>
    show (if l.length = 0 then Except.ok imgData
      else match decodeImage imgData with
        | Except.error e => Except.error ("failed to decode image for annotation: " ++ e)
        | Except.ok (img, format) =>
          let rgba := List.foldl (annotateElement cfg) img l
          match if format = "png" then encodePNG rgba else encodeJPEG rgba with
          | Except.error e => Except.error ("failed to encode annotated image: " ++ e)
          | Except.ok out => Except.ok out) = Except.ok imgData
    rw [if_pos (h l rfl)]

theorem mem_intRange {a b x : ℤ} (h : x ∈ intRange a b) : a ≤ x ∧ x ≤ b := by
  unfold intRange at h
  obtain ⟨k, hk, rfl⟩ := List.mem_map.mp h
  rw [List.mem_range] at hk
  omega

theorem clamp_mem {lo hi v : ℤ} (h : lo ≤ hi) : lo ≤ clamp v lo hi ∧ clamp v lo hi ≤ hi := by
  unfold clamp
  split_ifs <;> omega

theorem mem_prod_rows {xs ys : List ℤ} {p : ℤ × ℤ}
    (hp : p ∈ (ys.map (fun y => xs.map (fun x => ((x, y) : ℤ × ℤ)))).flatten) :
    p.1 ∈ xs ∧ p.2 ∈ ys := by
  rw [List.mem_flatten] at hp
  obtain ⟨l, hl, hpl⟩ := hp
  obtain ⟨y, hy, rfl⟩ := List.mem_map.mp hl
  obtain ⟨x, hx, rfl⟩ := List.mem_map.mp hpl
  exact ⟨hx, hy⟩

theorem mem_prod_cols {xs ys : List ℤ} {p : ℤ × ℤ}
    (hp : p ∈ (xs.map (fun x => ys.map (fun y => ((x, y) : ℤ × ℤ)))).flatten) :
    p.1 ∈ xs ∧ p.2 ∈ ys := by
  rw [List.mem_flatten] at hp
  obtain ⟨l, hl, hpl⟩ := hp
  obtain ⟨x, hx, rfl⟩ := List.mem_map.mp hl
  obtain ⟨y, hy, rfl⟩ := List.mem_map.mp hpl
  exact ⟨hx, hy⟩

/-- Every border-strip write lands inside a non-empty image rectangle:
the corners are clamped into it and the strips stay between them. -/
theorem drawBoundingBoxWrites_in_bounds (r : GoRect) (bbox : BoundingBox)
    (borderWidth : ℤ) (hx : r.minX < r.maxX) (hy : r.minY < r.maxY) :
    ∀ p ∈ drawBoundingBoxWrites r bbox borderWidth, inRect r p = true := by
  intro p hp
  unfold drawBoundingBoxWrites at hp
  have hxc0 := clamp_mem (v := goInt bbox.x) (by omega : r.minX ≤ r.maxX - 1)
  have hyc0 := clamp_mem (v := goInt bbox.y) (by omega : r.minY ≤ r.maxY - 1)
  have hxc1 := clamp_mem (v := goInt (bbox.x + bbox.width)) (by omega : r.minX ≤ r.maxX - 1)
  have hyc1 := clamp_mem (v := goInt (bbox.y + bbox.height)) (by omega : r.minY ≤ r.maxY - 1)
  unfold inRect
  rw [decide_eq_true_eq]
  simp only [List.mem_append] at hp
  rcases hp with ((hp | hp) | hp) | hp
  · have := mem_prod_rows hp
    have h1 := mem_intRange this.1
    have h2 := mem_intRange this.2
    omega
  · have := mem_prod_rows hp
    have h1 := mem_intRange this.1
    have h2 := mem_intRange this.2
    omega
  · have := mem_prod_cols hp
    have h1 := mem_intRange this.1
    have h2 := mem_intRange this.2
    omega
  · have := mem_prod_cols hp
    have h1 := mem_intRange this.1
    have h2 := mem_intRange this.2
    omega

/-- Every digit-rasterization write is guarded in the source by an
explicit in-bounds test. -/
theorem drawDigitWrites_in_bounds (r : GoRect) (digit : ℕ) (x y width height : ℤ) :
    ∀ p ∈ drawDigitWrites r digit x y width height, inRect r p = true := by
  intro p hp
  unfold drawDigitWrites at hp
  split_ifs at hp
  · cases hp
  · simp only [List.mem_flatten, List.mem_map] at hp
    obtain ⟨l1, ⟨rowp, _, rfl⟩, hp⟩ := hp
    simp only [List.mem_flatten, List.mem_map] at hp
    obtain ⟨l2, ⟨colp, _, rfl⟩, hp⟩ := hp
    rw [List.mem_filter] at hp
    exact hp.2

/-- Every label write lands inside the image: the background sweep is cut
at `Max` by the loop bounds and at `Min` by the per-pixel guard, and digit
writes carry their own guard. -/
theorem drawIndexLabelWrites_in_bounds (r : GoRect) (index : ℤ) (bbox : BoundingBox)
    (cfg : AnnotationConfig) :
    ∀ p ∈ drawIndexLabelWrites r index bbox cfg, inRect r p = true := by
  intro p hp
  unfold drawIndexLabelWrites at hp
  simp only [List.mem_append] at hp
  rcases hp with hp | hp
  · rw [List.mem_flatten] at hp
    obtain ⟨l, hl, hpl⟩ := hp
    obtain ⟨yv, hyv, rfl⟩ := List.mem_map.mp hl
    obtain ⟨xv, hxv, rfl⟩ := List.mem_map.mp hpl
    rw [List.mem_filter] at hyv hxv
    have hys := mem_intRange hyv.1
    have hxs := mem_intRange hxv.1
    have hy2 := of_decide_eq_true hyv.2
    have hx2 := of_decide_eq_true hxv.2
    unfold inRect
    rw [decide_eq_true_eq]
    omega
  · rw [List.mem_flatten] at hp
    obtain ⟨l, hl, hpl⟩ := hp
    obtain ⟨q, _, rfl⟩ := List.mem_map.mp hl
    match q2 : q.2 with
    | none => rw [q2] at hpl; cases hpl
    | some d =>
      rw [q2] at hpl
      exact drawDigitWrites_in_bounds r d _ _ _ _ p hpl

/-- Claim C10: for any element bounding box, index value and
configuration, every pixel write of border drawing, label-background
painting and digit rasterization targets coordinates inside the (decoded,
hence non-empty) image rectangle. -/
theorem annotation_writes_in_bounds (r : GoRect) (bbox : BoundingBox) (borderWidth : ℤ)
    (index : ℤ) (cfg : AnnotationConfig) (hx : r.minX < r.maxX) (hy : r.minY < r.maxY) :
    (∀ p ∈ drawBoundingBoxWrites r bbox borderWidth, inRect r p = true) ∧
    (∀ p ∈ drawIndexLabelWrites r index bbox cfg, inRect r p = true) ∧
    (∀ (digit : ℕ) (x0 y0 w h : ℤ), ∀ p ∈ drawDigitWrites r digit x0 y0 w h,
      inRect r p = true) :=
  ⟨drawBoundingBoxWrites_in_bounds r bbox borderWidth hx hy,
   drawIndexLabelWrites_in_bounds r index bbox cfg,
   fun digit x0 y0 w h => drawDigitWrites_in_bounds r digit x0 y0 w h⟩

/-! ## Counterexamples and concrete instantiations -/

/-- Counterexample to claim C2 as stated: with two identical candidates at
the same paint order (a list that is sorted by descending paint order),
the second is marked occluded by the first, yet no candidate has strictly
higher paint order than it. -/
theorem occlusion_strict_counterexample :
    List.Pairwise (fun a b => b.paintOrder ≤ a.paintOrder) [c2el, c2el] ∧
    ((markOccludedElements [c2el, c2el]).map (fun e => e.isOccluded) = [false, true]) ∧
    (∀ h ∈ [c2el, c2el], ¬(c2el.paintOrder < h.paintOrder)) := by
  refine ⟨by decide, ?_, by decide⟩
  have hsig : isSignificantlyOccluded ⟨0, 0, 10, 10⟩ ⟨0, 0, 10, 10⟩ = true := by
    norm_num [isSignificantlyOccluded, min_def, max_def]
  have hne : boxNonEmpty (⟨0, 0, 10, 10⟩ : BoundingBox) = true := by decide
  simp [markOccludedElements, markOccludedLoop, c2el, EnhancedElement.base, Element.zero,
    hne, hsig]

theorem occlusion_marks_iff_witness :
    List.Pairwise (fun a b => b.paintOrder ≤ a.paintOrder) [c2el, c2el] ∧
    ([c2el, c2el][1]? = some c2el) ∧ c2el.isOccluded = false ∧
    (((markOccludedElements [c2el, c2el])[1]?.map (fun e => e.isOccluded) = some true ↔
      ∃ j h, j < 1 ∧ [c2el, c2el][j]? = some h ∧ boxNonEmpty h.element.boundingBox = true ∧
        c2el.paintOrder ≤ h.paintOrder ∧
        interArea c2el.element.boundingBox h.element.boundingBox /
          boxArea c2el.element.boundingBox ≥ 9 / 10)) :=
  ⟨by decide, by decide, by decide,
   occlusion_marks_iff [c2el, c2el] (by decide) 1 c2el (by decide) (by decide)⟩

theorem containment_marks_iff_witness :
    ([c3inner, c3outer][0]? = some c3inner) ∧ c3inner.isContained = false ∧
    boxNonEmpty c3inner.element.boundingBox = true ∧
    (((markContainedElements [c3inner, c3outer])[0]?.map (fun e => e.isContained) =
        some true ↔
      ∃ j p, [c3inner, c3outer][j]? = some p ∧ j ≠ 0 ∧ p.element.isInteractive = true ∧
        boxNonEmpty p.element.boundingBox = true ∧
        interArea c3inner.element.boundingBox p.element.boundingBox /
          boxArea c3inner.element.boundingBox ≥ 99 / 100 ∧
        boxArea c3inner.element.boundingBox < boxArea p.element.boundingBox)) :=
  ⟨by decide, by decide, by decide,
   containment_marks_iff [c3inner, c3outer] 0 c3inner (by decide) (by decide) (by decide)⟩

/-- Counterexample to claim C4 as stated: a node carrying a `disabled`
attribute with empty value still parses with `isEnabled = true`, because
`getAttr` returns the empty string both for an absent attribute and for an
empty value. -/
theorem isEnabled_disabled_empty_counterexample :
    nodeHasAttr c4doc 0 "disabled" = true ∧
    ((parseSnapshotResponse c4doc emptyAXLookup).map (fun e => e.element.isEnabled) =
      [true]) :=
  ⟨by decide, by decide⟩

theorem extract_map_invariants_witness :
    sdocElement.element.index = (0 : ℤ) ∧ sdocElement.isOccluded = false ∧
    sdocElement.isContained = false ∧ sdocElement.element.isInteractive = true ∧
    sdocElement.element.isVisible = true :=
  extract_map_invariants sdoc emptyAXLookup none "T" "U" 0 sdocElement (by decide)

theorem extract_isNew_iff_witness :
    (sdocElement.isNew = true ↔
      (none : Option EnhancedElementMap).isSome = true ∧
        (prevBackendKeys none).contains sdocElement.backendNodeID = false) :=
  extract_isNew_iff sdoc emptyAXLookup none "T" "U" sdocElement (by decide)

/-- Full evaluation of the extraction on `c7doc`: both duplicate-id
buttons survive, and the table holds the later insertion first. -/
theorem c7_extract_eval :
    extractCore c7doc emptyAXLookup none "" "" =
      { pageURL := "", pageTitle := "", elements := [c7m1, c7m2]
        indexMap := [(1, c7m2.element), (0, c7m1.element)]
        backendNodeMap := [(5, c7m2), (5, c7m1)], previousNodeIDs := []
        totalElements := 2, filteredByPaint := 0, filteredByContain := 0
        filteredByHidden := 0 } := by
  have hs : isSignificantlyOccluded ⟨100, 0, 10, 10⟩ ⟨0, 0, 10, 10⟩ = false := by
    norm_num [isSignificantlyOccluded, min_def, max_def]
  have hc1 : isContainedWithin ⟨0, 0, 10, 10⟩ ⟨100, 0, 10, 10⟩
      defaultInteractiveConfig.containmentThreshold = false := by
    norm_num [isContainedWithin, defaultInteractiveConfig, min_def, max_def]
  have hc2 : isContainedWithin ⟨100, 0, 10, 10⟩ ⟨0, 0, 10, 10⟩
      defaultInteractiveConfig.containmentThreshold = false := by
    norm_num [isContainedWithin, defaultInteractiveConfig, min_def, max_def]
  have hne1 : boxNonEmpty (⟨0, 0, 10, 10⟩ : BoundingBox) = true := by decide
  have hne2 : boxNonEmpty (⟨100, 0, 10, 10⟩ : BoundingBox) = true := by decide
  have hbuild : sortByPaintOrder
      ((candidateIndices c7doc).map (buildElement c7doc emptyAXLookup)) = [c7e1, c7e2] := by
    decide
  have hocc : markOccludedElements [c7e1, c7e2] = [c7e1, c7e2] := by
    simp [markOccludedElements, markOccludedLoop, c7e1, c7e2, EnhancedElement.base,
      Element.zero, hne1, hne2, hs]
  have hcon : markContainedElements [c7e1, c7e2] = [c7e1, c7e2] := by
    simp [markContainedElements, markContainedLoop, containedScan, c7e1, c7e2,
      EnhancedElement.base, Element.zero, hne1, hne2, hc1, hc2]
  have hparse : parseSnapshotResponse c7doc emptyAXLookup = [c7e1, c7e2] := by
    unfold parseSnapshotResponse
    rw [hbuild, hocc, hcon]
  simp only [extractCore]
  rw [hparse]
  decide

/-- Counterexample to claim C7 as stated: the first of two map elements
sharing backend id 5 is not what the table returns for 5 — the later
insertion overwrote it. -/
theorem backendNodeMap_duplicate_counterexample :
    ((extractCore c7doc emptyAXLookup none "" "").elements[0]? = some c7m1) ∧
    c7m1.backendNodeID = 5 ∧ (5 : ℤ) > 0 ∧
    assocLookup 5 (extractCore c7doc emptyAXLookup none "" "").backendNodeMap =
      some c7m2 ∧
    c7m1 ≠ c7m2 := by
  rw [c7_extract_eval]
  exact ⟨by decide, by decide, by decide, by decide, by decide⟩

theorem extract_backendNodeMap_last_witness :
    assocLookup c7m2.backendNodeID
      (extractCore c7doc emptyAXLookup none "" "").backendNodeMap = some c7m2 :=
  extract_backendNodeMap_last c7doc emptyAXLookup none "" "" [c7m1] c7m2 []
    (by rw [c7_extract_eval]; rfl) (by decide) (by intro e he; cases he)

/-- Counterexample to claim C8 as stated: with `maxElements = 5 > 0` and a
single visible element, the header takes the plain "Elements (1):" form —
no "X of Y shown" appears anywhere in the output. -/
theorem token_header_counterexample :
    (0 : ℤ) < 5 ∧
    ToTokenStringEnhanced (extractCore sdoc emptyAXLookup none "T" "U") 5 =
      "Page: U\nURL: T\nElements (1):\n[0] a\n" ∧
    goStrContains
      (ToTokenStringEnhanced (extractCore sdoc emptyAXLookup none "T" "U") 5) "shown" =
      false :=
  ⟨by decide, by decide, by decide⟩

theorem token_serialization_truncates_witness :
    (0 : ℤ) < 5 ∧
    ToTokenStringEnhanced (extractCore sdoc emptyAXLookup none "T" "U") 5 =
      "Page: U\nURL: T\nElements (1):\n[0] a\n" :=
  ⟨by decide, by
    rw [token_serialization_truncates (extractCore sdoc emptyAXLookup none "T" "U") 5
      (by decide)]
    decide⟩

theorem annotate_empty_map_identity_witness :
    Annotate (fun _ => Except.error "no decoder") (fun _ => Except.error "no encoder")
      (fun _ => Except.error "no encoder") [1, 2, 3] none DefaultAnnotationConfig =
      Except.ok [1, 2, 3] :=
  annotate_empty_map_identity _ _ _ [1, 2, 3] none DefaultAnnotationConfig
    (fun _ h => nomatch h)

theorem annotation_writes_in_bounds_witness :
    ((0 : ℤ) < 200 ∧ (0 : ℤ) < 100) ∧
    ((∀ p ∈ drawBoundingBoxWrites ⟨0, 0, 200, 100⟩ ⟨50, 50, 80, 40⟩ 2,
        inRect ⟨0, 0, 200, 100⟩ p = true) ∧
     (∀ p ∈ drawIndexLabelWrites ⟨0, 0, 200, 100⟩ 7 ⟨50, 50, 80, 40⟩
        DefaultAnnotationConfig, inRect ⟨0, 0, 200, 100⟩ p = true) ∧
     (∀ (digit : ℕ) (x0 y0 w h : ℤ),
        ∀ p ∈ drawDigitWrites ⟨0, 0, 200, 100⟩ digit x0 y0 w h,
          inRect ⟨0, 0, 200, 100⟩ p = true)) :=
  ⟨⟨by decide, by decide⟩,
   annotation_writes_in_bounds ⟨0, 0, 200, 100⟩ ⟨50, 50, 80, 40⟩ 2 7
     DefaultAnnotationConfig (by decide) (by decide)⟩
